import Mathlib

/-!
# Verification of the `large-display-card` configuration / render pipeline

A shallow embedding of `src/large-number-card.ts` (the `LargeDisplayCard`
custom element).  JavaScript runtime values are modelled by the inductive
type `JVal`; JS numbers are modelled as exact rationals (the type `Q`
below); JS objects are modelled
as insertion-ordered association lists, which is how JS enumerates own
keys.  All definitions are executable, so witnesses evaluate by `decide`.
-/

set_option maxRecDepth 10000
set_option linter.unusedVariables false
set_option linter.unreachableTactic false
set_option linter.unusedTactic false
set_option linter.unnecessarySeqFocus false

namespace LargeDisplayCard

/-! ## Exact JS numbers

JS numbers are IEEE doubles; every number the card's numeric paths
produce comes from short decimal literals, where doubles and exact
decimal arithmetic agree, so numbers are modelled as exact rationals.
`Q` is a hand-rolled rational whose operations reduce in the kernel
(so `decide` can evaluate the model); values built by the operations
below are canonical: positive denominator, reduced fraction. -/

structure Q where
  num : Int
  den : Nat
  deriving Repr, DecidableEq

instance (n : Nat) : OfNat Q n := ⟨⟨n, 1⟩⟩

/-- Normalized fraction `n / d` (canonical representative). -/
def qmk (n : Int) (d : Nat) : Q :=
  if d = 0 then ⟨0, 1⟩
  else
    let g := Nat.gcd n.natAbs d
    ⟨n / (g : Int), d / g⟩

/-- Embed a natural number. -/
def qofNat (n : Nat) : Q := ⟨n, 1⟩

/-- Negation. -/
def qneg (a : Q) : Q := ⟨-a.num, a.den⟩

/-- Addition. -/
def qadd (a b : Q) : Q := qmk (a.num * b.den + b.num * a.den) (a.den * b.den)

/-- Multiplication. -/
def qmul (a b : Q) : Q := qmk (a.num * b.num) (a.den * b.den)

/-- Floor (the denominator is positive, so Euclidean division is the
floor). -/
def qfloor (a : Q) : Int := a.num.ediv a.den

/-- A JavaScript runtime value (`undefined` is represented by `Option.none`
at use sites; `null` is a value). Numbers are exact rationals. -/
inductive JVal where
  | null
  | bool (b : Bool)
  | num (q : Q)
  | str (s : String)
  | arr (elems : List JVal)
  | obj (fields : List (String × JVal))
  deriving Repr

namespace JVal

mutual

/-- Structural equality test on `JVal` (written by hand: nested inductives
have no derived `DecidableEq` here). -/
def beqV (a b : JVal) : Bool :=
  match a, b with
  | .null, .null => true
  | .bool a, .bool b => a == b
  | .num a, .num b => a == b
  | .str a, .str b => a == b
  | .arr xs, .arr ys => beqL xs ys
  | .obj fs, .obj gs => beqF fs gs
  | _, _ => false
termination_by structural a

/-- Elementwise equality of value lists. -/
def beqL (xs ys : List JVal) : Bool :=
  match xs, ys with
  | [], [] => true
  | x :: xs, y :: ys => beqV x y && beqL xs ys
  | _, _ => false
termination_by structural xs

/-- Elementwise equality of field lists. -/
def beqF (fs gs : List (String × JVal)) : Bool :=
  match fs, gs with
  | [], [] => true
  | (k, v) :: fs, (k', v') :: gs => k == k' && beqV v v' && beqF fs gs
  | _, _ => false
termination_by structural fs

end

mutual

theorem beqV_iff : (a b : JVal) → (beqV a b = true ↔ a = b)
  | .null, .null => by simp [beqV]
  | .null, .bool _ => by simp [beqV]
  | .null, .num _ => by simp [beqV]
  | .null, .str _ => by simp [beqV]
  | .null, .arr _ => by simp [beqV]
  | .null, .obj _ => by simp [beqV]
  | .bool _, .null => by simp [beqV]
  | .bool _, .bool _ => by simp [beqV]
  | .bool _, .num _ => by simp [beqV]
  | .bool _, .str _ => by simp [beqV]
  | .bool _, .arr _ => by simp [beqV]
  | .bool _, .obj _ => by simp [beqV]
  | .num _, .null => by simp [beqV]
  | .num _, .bool _ => by simp [beqV]
  | .num _, .num _ => by simp [beqV]
  | .num _, .str _ => by simp [beqV]
  | .num _, .arr _ => by simp [beqV]
  | .num _, .obj _ => by simp [beqV]
  | .str _, .null => by simp [beqV]
  | .str _, .bool _ => by simp [beqV]
  | .str _, .num _ => by simp [beqV]
  | .str _, .str _ => by simp [beqV]
  | .str _, .arr _ => by simp [beqV]
  | .str _, .obj _ => by simp [beqV]
  | .arr _, .null => by simp [beqV]
  | .arr _, .bool _ => by simp [beqV]
  | .arr _, .num _ => by simp [beqV]
  | .arr _, .str _ => by simp [beqV]
  | .arr xs, .arr ys => by simp [beqV, beqL_iff xs ys]
  | .arr _, .obj _ => by simp [beqV]
  | .obj _, .null => by simp [beqV]
  | .obj _, .bool _ => by simp [beqV]
  | .obj _, .num _ => by simp [beqV]
  | .obj _, .str _ => by simp [beqV]
  | .obj _, .arr _ => by simp [beqV]
  | .obj fs, .obj gs => by simp [beqV, beqF_iff fs gs]

theorem beqL_iff : (xs ys : List JVal) → (beqL xs ys = true ↔ xs = ys)
  | [], [] => by simp [beqL]
  | [], _ :: _ => by simp [beqL]
  | _ :: _, [] => by simp [beqL]
  | x :: xs, y :: ys => by
    simp [beqL, beqV_iff x y, beqL_iff xs ys]

theorem beqF_iff : (fs gs : List (String × JVal)) → (beqF fs gs = true ↔ fs = gs)
  | [], [] => by simp [beqF]
  | [], _ :: _ => by simp [beqF]
  | _ :: _, [] => by simp [beqF]
  | (k, v) :: fs, (k', v') :: gs => by
    simp [beqF, beqV_iff v v', beqF_iff fs gs, and_assoc,
      Prod.ext_iff]

end

instance : DecidableEq JVal := fun a b =>
  decidable_of_iff (beqV a b = true) (beqV_iff a b)

end JVal

namespace JVal

/-- JS truthiness (`Boolean(v)`): `null`, `false`, `0`, `""` are falsy;
arrays and objects (even empty ones) are truthy. -/
def truthy : JVal → Bool
  | .null => false
  | .bool b => b
  | .num q => q ≠ 0
  | .str s => s ≠ ""
  | .arr _ => true
  | .obj _ => true

/-- `val && typeof val === 'object' && !Array.isArray(val)`: the test
`deepMerge` uses to decide whether to recurse. Only plain objects qualify
(`null` is falsy, arrays are excluded). -/
def isObjLike : JVal → Bool
  | .obj _ => true
  | _ => false

end JVal

/-! ## Decimal digit strings

JS array indices and `Number#toFixed` need decimal rendering of naturals.
`natToStr` is standard base-10, most-significant digit first. -/

/-- The decimal digit character for `n % 10`. -/
def digitChar (n : Nat) : Char :=
  match n with
  | 0 => '0' | 1 => '1' | 2 => '2' | 3 => '3' | 4 => '4'
  | 5 => '5' | 6 => '6' | 7 => '7' | 8 => '8' | _ => '9'

/-- Decimal digits, most significant first, with structural fuel (the
fuel is ample: the recursion depth is at most the number of digits). -/
def natDigitsGo : Nat → Nat → List Nat
  | 0, n => [n % 10]
  | fuel + 1, n => if n < 10 then [n] else natDigitsGo fuel (n / 10) ++ [n % 10]

/-- Decimal digits of `n`, most significant first. -/
def natDigits (n : Nat) : List Nat := natDigitsGo n n

/-- Decimal rendering of a natural number, e.g. `natToStr 12 = "12"`. -/
def natToStr (n : Nat) : String :=
  ⟨(natDigits n).map digitChar⟩

/-- Numeric value of a decimal digit character, if it is one. -/
def digitVal (c : Char) : Option Nat :=
  if '0' ≤ c ∧ c ≤ '9' then some (c.toNat - 48) else none

/-- Accumulating decimal parser over a character list. -/
def strToNatCore : List Char → Nat → Option Nat
  | [], acc => some acc
  | c :: rest, acc =>
    match digitVal c with
    | some d => strToNatCore rest (acc * 10 + d)
    | none => none

/-- Parse a nonempty all-digit string as a natural number. -/
def strToNat? (s : String) : Option Nat :=
  match s.data with
  | [] => none
  | cs => strToNatCore cs 0

/-- A string is a canonical JS array index iff it is the decimal rendering
of its numeric value (no leading zeros, no sign, no junk). -/
def parseIndex (k : String) : Option Nat :=
  match strToNat? k with
  | some i => if natToStr i = k then some i else none
  | none => none

namespace JVal

/-- First-match lookup in an object's field list (`o[k]` for own keys). -/
def lookupField (fs : List (String × JVal)) (k : String) : Option JVal :=
  match fs with
  | [] => none
  | (k', v) :: rest => if k' = k then some v else lookupField rest k

/-- Property read `t[k]`, `none` meaning `undefined`.  Strings and arrays
expose `length` and their indexed elements; other primitives have no own
properties. -/
def getProp? : JVal → String → Option JVal
  | .obj fs, k => lookupField fs k
  | .arr xs, k =>
    if k = "length" then some (.num (qofNat xs.length))
    else (parseIndex k).bind fun i => xs.get? i
  | .str s, k =>
    if k = "length" then some (.num (qofNat s.length))
    else (parseIndex k).bind fun i =>
      (s.data.get? i).map fun c => JVal.str (String.singleton c)
  | _, _ => none

/-- `target ? target[key] : {}` as used by `deepMerge` to pick the
recursion target; a missing property behaves like `null` because both
spread to `{}`. -/
def childTarget (t : JVal) (k : String) : JVal :=
  if t.truthy then (t.getProp? k).getD .null else .null

/-- Update the first occurrence of key `k` (keeping its position), or
append `(k, v)` — JS property-assignment order semantics. -/
def setFields (fs : List (String × JVal)) (k : String) (v : JVal) :
    List (String × JVal) :=
  match fs with
  | [] => [(k, v)]
  | (k', v') :: rest =>
    if k' = k then (k, v) :: rest else (k', v') :: setFields rest k v

/-- Write element `i` of an array, extending it when `i ≥ length`
(JS would leave holes; holes read back as `undefined`, which this model
conflates with `null` — the merge never reads them). -/
def arrSet (xs : List JVal) (i : Nat) (v : JVal) : List JVal :=
  if i < xs.length then xs.set i v
  else xs ++ List.replicate (i - xs.length) .null ++ [v]

/-- Property write `out[k] = v`.  `out` in `deepMerge` is always an object
or an array.  Non-index keys on arrays (possible in JS, invisible to every
path this card takes) are not modelled. -/
def setProp : JVal → String → JVal → JVal
  | .obj fs, k, v => .obj (setFields fs k v)
  | .arr xs, k, v =>
    match parseIndex k with
    | some i => .arr (arrSet xs i v)
    | none => .arr xs
  | t, _, _ => t

/-- `{ ...s }`: spreading a string enumerates its characters under their
decimal index keys. -/
def strSpread (s : String) : List (String × JVal) :=
  (List.range s.data.length).map fun i =>
    (natToStr i, JVal.str (String.singleton (s.data.getD i ' ')))

/-- `Array.isArray(target) ? [...target] : { ...target }`, the fresh
output value `deepMerge` starts from. -/
def copyTarget : JVal → JVal
  | .obj fs => .obj fs
  | .arr xs => .arr xs
  | .str s => .obj (strSpread s)
  | _ => .obj []

mutual

/-- `deepMerge(target, source)` from `large-number-card.ts`:
shallow-copies `target`, then for every own key of `source`: plain-object
values recurse onto `target[key]`, everything else overwrites. -/
def deepMerge (target source : JVal) : JVal :=
  match source with
  | .obj fs => applyFields target (copyTarget target) fs
  | .arr xs => applyArr target (copyTarget target) 0 xs
  | _ => copyTarget target
termination_by structural source

/-- The `for (const key of Object.keys(source))` loop when `source` is a
plain object. -/
def applyFields (target out : JVal) (fs : List (String × JVal)) : JVal :=
  match fs with
  | [] => out
  | (k, v) :: rest =>
    let nv := match v with
      | .obj _ => deepMerge (childTarget target k) v
      | _ => v
    applyFields target (setProp out k nv) rest
termination_by structural fs

/-- The same loop when `source` is an array (`Object.keys` yields the
decimal index strings in order). -/
def applyArr (target out : JVal) (i : Nat) (xs : List JVal) : JVal :=
  match xs with
  | [] => out
  | v :: rest =>
    let nv := match v with
      | .obj _ => deepMerge (childTarget target (natToStr i)) v
      | _ => v
    applyArr target (setProp out (natToStr i) nv) (i + 1) rest
termination_by structural xs

end

end JVal

/-- The value the merge loop writes for source entry `(k, v)`: object
values recurse onto the child target, everything else is written as
is. -/
def stepVal (t : JVal) (k : String) (v : JVal) : JVal :=
  match v with
  | .obj _ => JVal.deepMerge (JVal.childTarget t k) v
  | _ => v

/-- The field-list view of the `Object.keys` loop of `deepMerge` when
the output under construction is a plain object: fold the per-entry
write over the accumulated field list. -/
def applyList (t : JVal) (acc : List (String × JVal)) :
    List (String × JVal) → List (String × JVal)
  | [] => acc
  | (k, v) :: rest => applyList t (JVal.setFields acc k (stepVal t k v)) rest

/-! ## JS number ↔ string conversions

JS numbers are IEEE doubles; the card only ever formats numbers parsed
from short decimal state strings, where doubles and exact rationals
agree, so numbers are modelled as `Rat`.  `none` stands for a value that
is not a finite number (`NaN`, `±Infinity`). -/

/-- Longest prefix of decimal digits (as numeric values) and the rest. -/
def spanDigits : List Char → List Nat × List Char
  | [] => ([], [])
  | c :: rest =>
    match digitVal c with
    | some d => let (ds, r) := spanDigits rest; (d :: ds, r)
    | none => ([], c :: rest)

/-- Value of a digit list, most significant first. -/
def digitsValNat (ds : List Nat) : Nat :=
  ds.foldl (fun a d => a * 10 + d) 0

/-- The whitespace characters JS `String#trim` strips (the common ASCII
subset; exotic Unicode spaces are not modelled). -/
def isJsSpace (c : Char) : Bool :=
  c = ' ' ∨ c = '\t' ∨ c = '\n' ∨ c = '\r' ∨ c = '\x0b' ∨ c = '\x0c'

/-- `s.trim()`. -/
def jsTrim (s : String) : String :=
  ⟨((s.data.dropWhile isJsSpace).reverse.dropWhile isJsSpace).reverse⟩

/-- Body of the JS `StrDecimalLiteral` grammar after the sign:
`digits [. digits] [(e|E) [sign] digits]`, at least one digit before the
exponent.  Hex/octal/binary literal forms (`0x…`) are not modelled. -/
def parseDecCore (cs : List Char) : Option Q :=
  let (ip, r1) := spanDigits cs
  let (fp, r2) :=
    match r1 with
    | '.' :: rest => spanDigits rest
    | _ => ([], r1)
  if ip = [] ∧ fp = [] then none
  else
    let base : Q :=
      qadd (qofNat (digitsValNat ip)) (qmk (digitsValNat fp) (10 ^ fp.length))
    match r2 with
    | [] => some base
    | e :: rest =>
      if e = 'e' ∨ e = 'E' then
        let (negExp, rest') : Bool × List Char :=
          match rest with
          | '+' :: t => (false, t)
          | '-' :: t => (true, t)
          | t => (false, t)
        let (ed, r3) := spanDigits rest'
        if ed = [] ∨ r3 ≠ [] then none
        else
          let e10 := 10 ^ digitsValNat ed
          some (if negExp then qmul base (qmk 1 e10) else qmul base (qofNat e10))
      else none

/-- `Number(s)` for a string, `none` when the result is not finite
(`NaN`, `Infinity`).  JS trims whitespace and maps the empty string
to `0`. -/
def jsParseNumber (s : String) : Option Q :=
  let t := jsTrim s
  if t = "" then some 0
  else
    match t.data with
    | '+' :: rest => if rest = "Infinity".data then none else parseDecCore rest
    | '-' :: rest => if rest = "Infinity".data then none else (parseDecCore rest).map qneg
    | cs => if cs = "Infinity".data then none else parseDecCore cs

/-- Digit string of `n` left-padded with zeros to at least `f + 1` digits,
with a decimal point inserted `f` places from the right — the digit
layout step of ECMA `Number.prototype.toFixed`. -/
def fixedFormat (n : Nat) (f : Nat) : String :=
  if f = 0 then natToStr n
  else
    let m := (natDigits n).map digitChar
    let m := List.replicate (f + 1 - m.length) '0' ++ m
    ⟨m.take (m.length - f)⟩ ++ "." ++ ⟨m.drop (m.length - f)⟩

/-- `toFixed` for a nonnegative rational: the integer `n` with `n / 10^f`
closest to `q`, ties to the larger `n` (ECMA step 10), then digit
layout. -/
def jsToFixedNN (q : Q) (f : Nat) : String :=
  fixedFormat (qfloor (qadd (qmul q (qofNat (10 ^ f))) (qmk 1 2))).toNat f

/-- `q.toFixed(f)` (ECMA `Number.prototype.toFixed`): negative values
format their magnitude behind a minus sign. -/
def jsToFixed (q : Q) (f : Nat) : String :=
  if q.num < 0 then "-" ++ jsToFixedNN (qneg q) f else jsToFixedNN q f

/-- Smallest `k` with `d ∣ 10^k`, when one exists (it does whenever `d`
has only the prime factors 2 and 5 — every denominator a decimal literal
can produce). -/
def decExp (d : Nat) : Option Nat :=
  (List.range (d + 1)).find? fun k => (10 : Nat) ^ k % d = 0

/-- `String(q)` for a finite JS number: the canonical decimal rendering
(for decimal-fraction rationals the minimal `k` makes the last digit
nonzero, so there are no trailing zeros, matching JS shortest output for
short decimals). -/
def jsNumToString (q : Q) : String :=
  let sign := if q.num < 0 then "-" else ""
  let n := q.num.natAbs
  match decExp q.den with
  | some k => sign ++ fixedFormat (n * 10 ^ k / q.den) k
  | none => sign ++ natToStr n

mutual

/-- JS `String(v)` / `ToString`. -/
def jsToString (v : JVal) : String :=
  match v with
  | .null => "null"
  | .bool b => if b then "true" else "false"
  | .num q => jsNumToString q
  | .str s => s
  | .arr xs => jsArrJoin xs
  | .obj _ => "[object Object]"
termination_by structural v

/-- `Array.prototype.toString` = `join(',')`: elements stringify
recursively, `null`/`undefined` elements render empty. -/
def jsArrJoin (xs : List JVal) : String :=
  match xs with
  | [] => ""
  | [x] =>
    (match x with
     | .null => ""
     | w => jsToString w)
  | x :: rest =>
    (match x with
     | .null => ""
     | w => jsToString w) ++ "," ++ jsArrJoin rest
termination_by structural xs

end

/-- JS `Number(v)` / `ToNumber`; `none` when not finite.  Arrays and
objects convert via their string form. -/
def jsToNumber : JVal → Option Q
  | .null => some 0
  | .bool b => some (if b then 1 else 0)
  | .num q => some q
  | .str s => jsParseNumber s
  | v => jsParseNumber (jsToString v)

/-! ## Registry constants (`src/const.ts`) -/

/-- `DEFAULT_CONFIG` from `src/const.ts`, verbatim. -/
def DEFAULT_CONFIG : JVal := .obj [
  ("entity_id", .str ""),
  ("text", .str ""),
  ("animation", .null),
  ("font", .str "Home Assistant"),
  ("font_weight", .str "normal"),
  ("color", .str "#FFFFFF"),
  ("size", .str "48"),
  ("number", .obj [
    ("size", .null), ("color", .null), ("font_weight", .null),
    ("decimals", .num 1), ("font", .null)]),
  ("unit_of_measurement", .obj [
    ("display", .bool true), ("as_prefix", .bool false),
    ("display_text", .null), ("size", .null), ("color", .null),
    ("font_weight", .null), ("font", .null)]),
  ("title", .obj [
    ("display", .bool false), ("text", .null), ("attribute", .null),
    ("size", .null), ("color", .null), ("font_weight", .null),
    ("font", .null)]),
  ("subtitle", .obj [
    ("display", .bool false), ("text", .null), ("attribute", .null),
    ("size", .null), ("color", .null), ("font_weight", .null),
    ("font", .null)]),
  ("card", .obj [("color", .null), ("background", .null)])]

/-- `FONT_REGISTRY` from `src/const.ts`: font label ↦ stylesheet URL
(`none` = the `null` entry of the default font). -/
def FONT_REGISTRY : List (String × Option String) := [
  ("Home Assistant", none),
  ("Rubik", some "https://fonts.googleapis.com/css2?family=Rubik:wght@300;400;500;700&display=swap"),
  ("Rubik Beastly", some "https://fonts.googleapis.com/css2?family=Rubik+Beastly&display=swap"),
  ("Rubik Bubbles", some "https://fonts.googleapis.com/css2?family=Rubik+Bubbles&display=swap"),
  ("Rubik Doodle Shadow", some "https://fonts.googleapis.com/css2?family=Rubik+Doodle+Shadow&display=swap"),
  ("Rubik Dirt", some "https://fonts.googleapis.com/css2?family=Rubik+Dirt&display=swap"),
  ("Rubik Glitch", some "https://fonts.googleapis.com/css2?family=Rubik+Glitch&display=swap"),
  ("Rubik Iso", some "https://fonts.googleapis.com/css2?family=Rubik+Iso&display=swap"),
  ("Rubik Microbe", some "https://fonts.googleapis.com/css2?family=Rubik+Microbe&display=swap"),
  ("Rubik Moonrocks", some "https://fonts.googleapis.com/css2?family=Rubik+Moonrocks&display=swap"),
  ("Rubik Pixels", some "https://fonts.googleapis.com/css2?family=Rubik+Pixels&display=swap"),
  ("Rubik Puddles", some "https://fonts.googleapis.com/css2?family=Rubik+Puddles&display=swap"),
  ("Rubik Scribble", some "https://fonts.googleapis.com/css2?family=Rubik+Scribble&display=swap"),
  ("Rubik Spray Paint", some "https://fonts.googleapis.com/css2?family=Rubik+Spray+Paint&display=swap"),
  ("Rubik Vinyl", some "https://fonts.googleapis.com/css2?family=Rubik+Vinyl&display=swap"),
  ("Rubik Wet Paint", some "https://fonts.googleapis.com/css2?family=Rubik+Wet+Paint&display=swap")]

/-- First-match association lookup (JS object / registry access). -/
def assocFind {α : Type} (l : List (String × α)) (k : String) : Option α :=
  match l with
  | [] => none
  | (k', v) :: rest => if k' = k then some v else assocFind rest k

/-! ## Host-state model -/

/-- Outcome of one awaited `hass.callApi('POST', 'template', …)` call:
a resolved value or a rejection. -/
inductive TmplOutcome where
  | ok (v : JVal)
  | err

/-- One entry of `hass.states`: the state string and the attribute
mapping (`none` = no `attributes` object). -/
structure StateObj where
  state : String
  attributes : Option (List (String × JVal))

/-- The host `hass` object: `states` (`none` = absent/null) and
`callApi` (`none` = not a function). -/
structure Hass where
  states : Option (List (String × StateObj))
  callApi : Option (String → TmplOutcome)

/-- `this._hass && this._hass.states`. -/
def hassStatesOf (hass : Option Hass) : Option (List (String × StateObj)) :=
  hass.bind (·.states)

/-- `this._hass && typeof this._hass.callApi === 'function'`, carrying
the call itself. -/
def hassCallApiOf (hass : Option Hass) : Option (String → TmplOutcome) :=
  hass.bind (·.callApi)

namespace JVal

/-- Truthiness of an optional-chain result (`undefined` is falsy). -/
def truthyOpt : Option JVal → Bool
  | none => false
  | some v => v.truthy

/-- Optional chaining `x?.k`: `undefined` when `x` is nullish. -/
def optChain (v : Option JVal) (k : String) : Option JVal :=
  match v with
  | none => none
  | some .null => none
  | some w => w.getProp? k

/-- Nullish coalescing `a ?? d` collapsing to a value. -/
def nullish (a : Option JVal) (d : JVal) : JVal :=
  match a with
  | some .null => d
  | some v => v
  | none => d

/-- Nullish coalescing `a ?? b` of two optional-chain results. -/
def nullishOr (a b : Option JVal) : Option JVal :=
  match a with
  | some .null => b
  | some v => some v
  | none => b

/-- JS `a || b`. -/
def jsOr (a b : JVal) : JVal := if a.truthy then a else b

/-- Property read collapsing `undefined` to `null` (`o[k]` used only for
truthiness / `typeof` / copying, where the two behave alike here). -/
def getPropD (v : JVal) (k : String) : JVal := (v.getProp? k).getD .null

end JVal

open JVal

/-! ## `computeDisplayTexts` -/

/-- The four derived strings (values written to the DOM, hence coerced
through `String(…)` where the source stores a raw value). -/
structure DTexts where
  state_display_text : String
  unit_of_measurement_text : String
  title_text : String
  subtitle_text : String
  deriving Repr, DecidableEq

/-- Whether `pat` is a prefix of `cs`. -/
def isPrefList : List Char → List Char → Bool
  | [], _ => true
  | _ :: _, [] => false
  | a :: as, b :: bs => a == b && isPrefList as bs

/-- Whether `pat` occurs inside `cs` (`String#includes`). -/
def infixList (pat : List Char) : List Char → Bool
  | [] => isPrefList pat []
  | c :: rest => isPrefList pat (c :: rest) || infixList pat rest

/-- `tpl.includes('\x7b\x7b') || tpl.includes('\x7b%')`. -/
def hasTmplMarkers (s : String) : Bool :=
  infixList "\x7b\x7b".data s.data || infixList "\x7b%".data s.data

/-- The shared title/subtitle logic of `computeDisplayTexts` (the source
duplicates it verbatim for the two sections): explicit text (shadow
first, then config) wins, else a configured attribute read off the
state object, else empty. -/
def textOrAttr (explicitText : Option JVal) (attrName : Option JVal)
    (so : StateObj) : String :=
  match explicitText with
  | some .null => textAttrOnly attrName so
  | some v => jsToString v
  | none => textAttrOnly attrName so
where
  /-- `cfgAttr && stateObj.attributes && attributes[cfgAttr] !== undefined`. -/
  textAttrOnly (attrName : Option JVal) (so : StateObj) : String :=
    match attrName with
    | some a =>
      if a.truthy then
        match so.attributes with
        | some ats =>
          match assocFind ats (jsToString a) with
          | some v => jsToString v
          | none => ""
        | none => ""
      else ""
    | none => ""

/-- Explicit text only (the no-entity branch has no attribute
fallback). -/
def textOnly (explicitText : Option JVal) : String :=
  match explicitText with
  | some .null => ""
  | some v => jsToString v
  | none => ""

/-- `computeDisplayTexts` (lines 346–439): derive the four display
strings from the effective config, the template-resolved shadow config
and the current `hass`. -/
def computeDisplayTexts (config shadowConfig : JVal) (hass : Option Hass) :
    DTexts :=
  let hasEntityId : Bool := config.truthy && truthyOpt (config.getProp? "entity_id")
  let hassStates := hassStatesOf hass
  if hasEntityId && hassStates.isSome then
    let eid := jsToString ((config.getProp? "entity_id").getD .null)
    match assocFind (hassStates.getD []) eid with
    | some so =>
      let rawState := so.state
      let parsed := jsParseNumber rawState
      let state_display_text :=
        match parsed with
        | none => rawState
        | some q =>
          let decimalsCfgRaw : JVal :=
            nullish (optChain (optChain (some config) "number") "decimals")
              (.num 1)  -- DEFAULT_CONFIG.number.decimals
          let decimalsCfg : Q :=
            match jsToNumber decimalsCfgRaw with
            | some d => d
            | none => 1  -- DEFAULT_CONFIG.number.decimals
          let useDecimals : Bool :=
            decimalsCfg.den = 1 && decide (0 ≤ decimalsCfg.num)
          if useDecimals then jsToFixed q decimalsCfg.num.toNat
          else jsNumToString q
      let unit_of_measurement_text :=
        match optChain (optChain (some config) "unit_of_measurement") "display_text" with
        | some .null => unitFromAttrs so
        | some v => jsToString v
        | none => unitFromAttrs so
      let title_text :=
        textOrAttr
          (nullishOr (optChain (optChain (some shadowConfig) "title") "text")
            (optChain (optChain (some config) "title") "text"))
          (optChain (optChain (some config) "title") "attribute") so
      let subtitle_text :=
        textOrAttr
          (nullishOr (optChain (optChain (some shadowConfig) "subtitle") "text")
            (optChain (optChain (some config) "subtitle") "text"))
          (optChain (optChain (some config) "subtitle") "attribute") so
      ⟨state_display_text, unit_of_measurement_text, title_text, subtitle_text⟩
    | none => ⟨"unknown", "", "", ""⟩
  else if hasEntityId && !hassStates.isSome then
    ⟨"loading", "", "", ""⟩
  else
    let state_display_text := jsToString (nullish (optChain (some config) "text") (.str ""))
    let unit_of_measurement_text :=
      textOnly (optChain (optChain (some config) "unit_of_measurement") "display_text")
    let title_text :=
      textOnly (nullishOr (optChain (optChain (some shadowConfig) "title") "text")
        (optChain (optChain (some config) "title") "text"))
    let subtitle_text :=
      textOnly (nullishOr (optChain (optChain (some shadowConfig) "subtitle") "text")
        (optChain (optChain (some config) "subtitle") "text"))
    ⟨state_display_text, unit_of_measurement_text, title_text, subtitle_text⟩
where
  /-- `stateObj.attributes && stateObj.attributes.unit_of_measurement`. -/
  unitFromAttrs (so : StateObj) : String :=
    match so.attributes with
    | some ats =>
      match assocFind ats "unit_of_measurement" with
      | some v => if v.truthy then jsToString v else ""
      | none => ""
    | none => ""

/-! ## `applyTemplates`

The method mutates `this.shadowConfig` field by field and awaits one
host call per templated field; modelled as a pure function returning the
new shadow config together with the list of template strings sent to the
host (in call order). -/

/-- Write `o[k1][k2] = v` (read the sub-object, update, write back). -/
def setPath2 (o : JVal) (k1 k2 : String) (v : JVal) : JVal :=
  setProp o k1 (setProp (getPropD o k1) k2 v)

/-- The `card.background` section of `applyTemplates` (lines 452–488):
ensure `shadow.card`, then for the key `background`: skip when the
config value is falsy but the shadow already holds something truthy;
resolve template strings through the host, storing the trimmed result
only when it is a nonempty string and falling back to
`previous shadow value || raw template` otherwise; copy non-template
values verbatim. -/
def applyCardSection (config shadow : JVal)
    (callApi : Option (String → TmplOutcome)) : JVal × List String :=
  if ¬ (getPropD config "card").truthy then (shadow, [])
  else
    let shadow := setProp shadow "card" (jsOr (getPropD shadow "card") (.obj []))
    let cardCfg := jsOr (getPropD config "card") (.obj [])
    let tpl := getPropD cardCfg "background"
    let prev := getPropD (getPropD shadow "card") "background"
    if ¬ tpl.truthy ∧ prev.truthy then (shadow, [])
    else
      match tpl with
      | .str s =>
        if hasTmplMarkers s then
          match callApi with
          | some f =>
            match f s with
            | .ok (.str r) =>
              if jsTrim r ≠ "" then (setPath2 shadow "card" "background" (.str (jsTrim r)), [s])
              else (setPath2 shadow "card" "background" (jsOr prev tpl), [s])
            | .ok _ => (setPath2 shadow "card" "background" (jsOr prev tpl), [s])
            | .err => (setPath2 shadow "card" "background" (jsOr prev tpl), [s])
          | none => (setPath2 shadow "card" "background" (jsOr prev tpl), [])
        else (setPath2 shadow "card" "background" tpl, [])
      | _ => (setPath2 shadow "card" "background" tpl, [])

/-- The `title.text` section of `applyTemplates` (lines 491–520); the
`subtitle.text` section (lines 523–552) is the same code with the other
key, so both are instances of this definition.  Note the asymmetry with
the card section: a successful string result is stored verbatim — not
trimmed, and even when empty. -/
def applyTextSection (config shadow : JVal) (sect : String)
    (callApi : Option (String → TmplOutcome)) : JVal × List String :=
  if ¬ (getPropD config sect).truthy then (shadow, [])
  else
    let shadow := setProp shadow sect (jsOr (getPropD shadow sect) (.obj []))
    let sectText := getPropD (getPropD config sect) "text"
    let prev := getPropD (getPropD shadow sect) "text"
    match sectText with
    | .str s =>
      if s ≠ "" ∧ hasTmplMarkers s then
        match callApi with
        | some f =>
          match f s with
          | .ok (.str r) => (setPath2 shadow sect "text" (.str r), [s])
          | .ok _ => (setPath2 shadow sect "text" (jsOr prev (.str s)), [s])
          | .err => (setPath2 shadow sect "text" (jsOr prev (.str s)), [s])
        | none => (setPath2 shadow sect "text" (jsOr prev (.str s)), [])
      else (setPath2 shadow sect "text" (.str s), [])
    | other => (setPath2 shadow sect "text" other, [])

/-- `applyTemplates` (lines 444–556): three sequential field sections
over the shadow config. -/
def applyTemplates (config shadow0 : JVal)
    (callApi : Option (String → TmplOutcome)) : JVal × List String :=
  if ¬ config.truthy then (shadow0, [])
  else
    let sh := if shadow0.truthy then shadow0 else deepMerge (.obj []) config
    let (s1, c1) := applyCardSection config sh callApi
    let (s2, c2) := applyTextSection config s1 "title" callApi
    let (s3, c3) := applyTextSection config s2 "subtitle" callApi
    (s3, c1 ++ c2 ++ c3)

/-- What one resolution of a templated (marker-carrying) card
background stores, read off the branches of the card section: a
successful nonempty-after-trim string result is stored trimmed; an
empty or non-string result, a failure, or a missing host all fall back
to `previous shadow value || raw template`. -/
def cardResolve (prev : JVal) (s : String)
    (api : Option (String → TmplOutcome)) : JVal :=
  match api with
  | some f =>
    match f s with
    | .ok (.str r) =>
      if jsTrim r ≠ "" then .str (jsTrim r) else JVal.jsOr prev (.str s)
    | .ok _ => JVal.jsOr prev (.str s)
    | .err => JVal.jsOr prev (.str s)
  | none => JVal.jsOr prev (.str s)

/-- What one resolution of a templated title/subtitle text stores, read
off the branches of the text sections: any string result is stored
verbatim — untrimmed, even when empty; a non-string result, a failure,
or a missing host fall back to `previous shadow value || raw
template`. -/
def textResolve (prev : JVal) (s : String)
    (api : Option (String → TmplOutcome)) : JVal :=
  match api with
  | some f =>
    match f s with
    | .ok (.str r) => .str r
    | .ok _ => JVal.jsOr prev (.str s)
    | .err => JVal.jsOr prev (.str s)
  | none => JVal.jsOr prev (.str s)

/-! ## `loadFont` -/

/-- `loadFont` (lines 314–335): returns the new `loadedFonts` set and
the list of stylesheet URLs injected by this call (length ≤ 1). -/
def loadFont (loadedFonts : List String) (font : String) :
    List String × List String :=
  if font = "" ∨ font = "Home Assistant" then (loadedFonts, [])
  else if loadedFonts.contains font then (loadedFonts, [])
  else
    match assocFind FONT_REGISTRY font with
    | some (some url) =>
      if url ≠ "" then (loadedFonts ++ [font], [url])
      else (loadedFonts ++ [font], [])
    | _ => (loadedFonts ++ [font], [])

/-- A sequence of `loadFont` requests over the component lifetime,
accumulating all injected stylesheet URLs. -/
def loadFontSeq (loadedFonts : List String) : List String → List String × List String
  | [] => (loadedFonts, [])
  | f :: fs =>
    let (l1, u1) := loadFont loadedFonts f
    let (l2, us) := loadFontSeq l1 fs
    (l2, u1 ++ us)

/-! ## Renderer / update coordinator

The DOM effects on the main value span are modelled as events; the two
nested `setTimeout(…, 300)` calls of `animateValueChange` become events
at absolute times 300 and 600 ms, in source order at each instant. -/

/-- A mutation of the value `<span>`: a `textContent` write, a
`classList` add/remove, or the `className = ''` wipe. -/
inductive DomEvent where
  | textSet (s : String)
  | classAdd (c : String)
  | classRemove (c : String)
  | classWipe
  deriving Repr, DecidableEq

/-- The `animationMap` literal of `animateValueChange` (lines 640–646):
recognized kinds and their out/in class pair. -/
def animationMap (animationType : String) : Option (String × String) :=
  match animationType with
  | "fade" => some ("animate-fade-out", "animate-fade-in")
  | "slide-horizontal" => some ("animate-slide-out-left", "animate-slide-in-right")
  | "slide-vertical" => some ("animate-slide-out-up", "animate-slide-in-up")
  | "zoom" => some ("animate-zoom-out", "animate-zoom-in")
  | "stretch" => some ("animate-stretch-out", "animate-stretch-in")
  | _ => none

/-- `animateValueChange` (lines 638–672) as a timed event schedule
(milliseconds from the call).  Unrecognized kinds set the text
immediately with no classes. -/
def animateValueChange (newValue : String) (animationType : String) :
    List (Nat × DomEvent) :=
  match animationMap animationType with
  | none => [(0, .textSet newValue)]
  | some cls =>
    [(0, .classWipe), (0, .classAdd cls.1),
     (300, .textSet newValue), (300, .classRemove cls.1), (300, .classAdd cls.2),
     (600, .classRemove cls.2)]

/-- Replay the class events with timestamp `≤ t` over an initial class
list (`classList.add` ignores duplicates; `remove` drops all copies;
`className = ''` wipes). -/
def classesUpTo (evs : List (Nat × DomEvent)) (t : Nat) (init : List String) :
    List String :=
  match evs with
  | [] => init
  | (ts, e) :: rest =>
    if ts ≤ t then
      match e with
      | .classAdd c => classesUpTo rest t (if c ∈ init then init else init ++ [c])
      | .classRemove c => classesUpTo rest t (init.filter (· ≠ c))
      | .classWipe => classesUpTo rest t []
      | .textSet _ => classesUpTo rest t init
    else classesUpTo rest t init

/-- The timestamps of the `textContent` writes of a schedule. -/
def textSetTimes (evs : List (Nat × DomEvent)) : List Nat :=
  (evs.filter fun p => match p.2 with | .textSet _ => true | _ => false).map Prod.fst

/-- Component state: the fields of `LargeDisplayCard` that the update
pipeline reads or writes (element handles, styles and the unit/title
slots carry no control flow and are not tracked). -/
structure CardState where
  config : JVal
  shadowConfig : JVal
  hass : Option Hass
  previousDisplayValue : Option String

/-- Effects of one `updateContent` pass: host template calls made, and
the value-span event schedule. -/
structure Effects where
  hostCalls : List String
  events : List (Nat × DomEvent)
  deriving DecidableEq

/-- The empty effect set (a skipped pass). -/
def Effects.none : Effects := ⟨[], []⟩

/-- `shouldUpdate` (lines 874–884): first render, or the freshly
computed value text differs from the last displayed one. -/
def shouldUpdate (s : CardState) : Bool :=
  let t := (computeDisplayTexts s.config s.shadowConfig s.hass).state_display_text
  match s.previousDisplayValue with
  | none => true
  | some p => p ≠ t

/-- `animationType !== 'none'`, negated (kernel-computable constructor
test). -/
def isNoneStr : JVal → Bool
  | .str s => s == "none"
  | _ => false

/-- The value-span part of `updateNumberDisplay` (lines 708–722):
animate when the value changed since the last render and a truthy
animation kind other than `'none'` is configured, else set the text
directly; then record the displayed value. -/
def updateNumberDisplay (s : CardState) (state_display_text : String) :
    CardState × List (Nat × DomEvent) :=
  let cfg := jsOr s.config DEFAULT_CONFIG
  let valueChanged : Bool :=
    s.previousDisplayValue.isSome &&
      !(s.previousDisplayValue == some state_display_text)
  let animationType := getPropD cfg "animation"
  let evs :=
    if valueChanged && animationType.truthy && !(isNoneStr animationType) then
      animateValueChange state_display_text (jsToString animationType)
    else [(0, .textSet state_display_text)]
  ({ s with previousDisplayValue := some state_display_text }, evs)

/-- `updateContent` (lines 610–633): gate on `shouldUpdate`, then
resolve templates, derive texts and update the value span. -/
def updateContent (s : CardState) : CardState × Effects :=
  if ¬ shouldUpdate s then (s, Effects.none)
  else
    let (sh, calls) := applyTemplates s.config s.shadowConfig (hassCallApiOf s.hass)
    let s1 := { s with shadowConfig := sh }
    let texts := computeDisplayTexts s1.config s1.shadowConfig s1.hass
    let (s2, evs) := updateNumberDisplay s1 texts.state_display_text
    (s2, ⟨calls, evs⟩)

/-- The `hass` setter (lines 337–341): store and re-render. -/
def setHass (s : CardState) (h : Option Hass) : CardState × Effects :=
  updateContent { s with hass := h }

/-- `_applyConfig` (lines 911–921): full merge onto the defaults, shadow
reset to a clone, then a render pass.  (`setConfig` merely debounces the
call.) -/
def applyConfig (s : CardState) (config : Option JVal) : CardState × Effects :=
  let cfg := deepMerge DEFAULT_CONFIG (jsOr (config.getD .null) (.obj []))
  let s1 := { s with config := cfg, shadowConfig := deepMerge (.obj []) cfg }
  updateContent s1

/-- The constructor (lines 296–309): both configs start as deep-merge
clones of `DEFAULT_CONFIG`. -/
def initialState (hass : Option Hass) : CardState :=
  { config := deepMerge (.obj []) DEFAULT_CONFIG
    shadowConfig := deepMerge (.obj []) (deepMerge (.obj []) DEFAULT_CONFIG)
    hass := hass
    previousDisplayValue := none }

/-! ## Specification-side merge

`mergeSpecFields` is written from the specification's words, not from
the source, to compare the two: the result holds every key of the
defaults in order (patched keys recursively merged or replaced), then
the patch's new keys; a patch value that is a non-array object merges
onto "the corresponding default sub-mapping (an empty mapping if the
defaults lack the key)". -/

/-- The "corresponding D sub-mapping" of a default value: its fields
when it is a mapping, the empty mapping otherwise. -/
def subMappingOf : JVal → List (String × JVal)
  | .obj gs => gs
  | _ => []

mutual

/-- Nesting depth of a value (for fuel bounds of the spec-side merge). -/
def jdepth (v : JVal) : Nat :=
  match v with
  | .obj fs => 1 + jdepthF fs
  | .arr xs => 1 + jdepthL xs
  | _ => 0
termination_by structural v

/-- Largest value depth in a field list. -/
def jdepthF (fs : List (String × JVal)) : Nat :=
  match fs with
  | [] => 0
  | (_, v) :: rest => max (jdepth v) (jdepthF rest)
termination_by structural fs

/-- Largest element depth in a list. -/
def jdepthL (xs : List JVal) : Nat :=
  match xs with
  | [] => 0
  | v :: rest => max (jdepth v) (jdepthL rest)
termination_by structural xs

end

/-- Fuel-structured body of the specification-side merge: the result
holds every key of the defaults in order — patched keys recursively
merged (object patch values) or replaced (all other patch values) — then
the patch's new keys in order.  A patch object value merges onto "the
corresponding default sub-mapping (an empty mapping if the defaults lack
the key)"; the fuel only bounds the patch's nesting depth and is
irrelevant whenever ample (`mergeSpecFields_fuel`). -/
def mergeSpecFields (fuel : Nat) (dfs pfs : List (String × JVal)) :
    List (String × JVal) :=
  match fuel with
  | 0 => dfs
  | fuel + 1 =>
    (dfs.map fun p =>
      match JVal.lookupField pfs p.1 with
      | some (.obj gs) => (p.1, JVal.obj (mergeSpecFields fuel (subMappingOf p.2) gs))
      | some v => (p.1, v)
      | none => p)
    ++ ((pfs.filter fun p => (JVal.lookupField dfs p.1).isNone).map fun p =>
      match p.2 with
      | .obj gs => (p.1, JVal.obj (mergeSpecFields fuel [] gs))
      | v => (p.1, v))

/-- The specification-side merge of two configuration trees (the fuel
`jdepthF pfs + 1` is ample: every recursive call strictly decreases the
patch depth). -/
def mergeSpec (d p : JVal) : JVal :=
  match d, p with
  | .obj dfs, .obj pfs => .obj (mergeSpecFields (jdepthF pfs + 1) dfs pfs)
  | d, _ => d

/-! `compatFields dfs pfs`: wherever the patch carries a non-array
object, the defaults hold a mapping, a scalar other than a string, or
nothing — the domain on which the code's merge and the specification's
merge coincide (strings spread their characters, arrays graft, see the
counterexample). -/

mutual

/-- One patch value against the default value found (if any) at its key:
object patch values need a mapping (or an absent/other-scalar slot, which
merges like an empty mapping) — not a string or an array. -/
def compatV (dv pv : JVal) : Bool :=
  match pv with
  | .obj gs =>
    (match dv with
     | .obj dgs => compatFields dgs gs
     | .str _ => false
     | .arr _ => false
     | _ => true)
  | _ => true
termination_by structural pv

/-- Pointwise compatibility of a patch field list with a default field
list. -/
def compatFields (dfs pfs : List (String × JVal)) : Bool :=
  match pfs with
  | [] => true
  | (k, v) :: rest =>
    (match JVal.lookupField dfs k with
     | some dv => compatV dv v
     | none => compatV .null v) && compatFields dfs rest
termination_by structural pfs

end

/-- No duplicates among a key list (kernel-computable `Nodup`). -/
def keysNodup : List String → Bool
  | [] => true
  | k :: rest => !(rest.contains k) && keysNodup rest

mutual

/-- Realizability of a modelled value as a JS value: object keys are
distinct (JS objects cannot carry duplicate own keys). -/
def wfJ (v : JVal) : Bool :=
  match v with
  | .obj fs => keysNodup (fs.map Prod.fst) && wfFields fs
  | .arr xs => wfElems xs
  | _ => true
termination_by structural v

/-- All field values well-formed. -/
def wfFields (fs : List (String × JVal)) : Bool :=
  match fs with
  | [] => true
  | (_, v) :: rest => wfJ v && wfFields rest
termination_by structural fs

/-- All elements well-formed. -/
def wfElems (xs : List JVal) : Bool :=
  match xs with
  | [] => true
  | v :: rest => wfJ v && wfElems rest
termination_by structural xs

end

/-! ## Basic lemmas -/

open JVal

@[simp] theorem truthy_null : JVal.truthy .null = false := rfl

@[simp] theorem truthy_obj (fs : List (String × JVal)) :
    JVal.truthy (.obj fs) = true := rfl

@[simp] theorem truthy_arr (xs : List JVal) :
    JVal.truthy (.arr xs) = true := rfl

@[simp] theorem truthy_bool (b : Bool) : JVal.truthy (.bool b) = b := by
  cases b <;> rfl

@[simp] theorem truthy_str (s : String) :
    JVal.truthy (.str s) = !(s == "") := by
  by_cases h : s = "" <;> simp [JVal.truthy, h]

@[simp] theorem truthy_num (q : Q) :
    JVal.truthy (.num q) = !(q == 0) := by
  by_cases h : q = 0 <;> simp [JVal.truthy, h]

@[simp] theorem getProp?_obj (fs : List (String × JVal)) (k : String) :
    JVal.getProp? (.obj fs) k = JVal.lookupField fs k := rfl

@[simp] theorem getProp?_null (k : String) :
    JVal.getProp? .null k = none := rfl

@[simp] theorem lookupField_nil (k : String) :
    JVal.lookupField [] k = none := rfl

theorem lookupField_cons (k' : String) (v : JVal)
    (rest : List (String × JVal)) (k : String) :
    JVal.lookupField ((k', v) :: rest) k =
      if k' = k then some v else JVal.lookupField rest k := rfl

@[simp] theorem optChain_none (k : String) : JVal.optChain none k = none := rfl

@[simp] theorem optChain_some (c : JVal) (k : String) :
    JVal.optChain (some c) k = c.getProp? k := by
  cases c <;> simp [JVal.optChain, JVal.getProp?]

@[simp] theorem truthyOpt_none : JVal.truthyOpt none = false := rfl

@[simp] theorem truthyOpt_some (v : JVal) :
    JVal.truthyOpt (some v) = v.truthy := rfl

@[simp] theorem nullish_none (d : JVal) : JVal.nullish none d = d := rfl

theorem nullish_some (v d : JVal) :
    JVal.nullish (some v) d = if v = .null then d else v := by
  cases v <;> simp [JVal.nullish]

@[simp] theorem nullishOr_none (b : Option JVal) :
    JVal.nullishOr none b = b := rfl

theorem nullishOr_some (v : JVal) (b : Option JVal) :
    JVal.nullishOr (some v) b = if v = .null then b else some v := by
  cases v <;> simp [JVal.nullishOr]

@[simp] theorem jsToString_str (s : String) : jsToString (.str s) = s := rfl

@[simp] theorem getPropD_eq (v : JVal) (k : String) :
    JVal.getPropD v k = (v.getProp? k).getD .null := rfl

@[simp] theorem q_ofNat_num (n : Nat) :
    (OfNat.ofNat n : Q).num = (n : Int) := rfl

@[simp] theorem q_ofNat_den (n : Nat) : (OfNat.ofNat n : Q).den = 1 := rfl

/-! ## C2: main value formatting -/

/-- C2 (counterexample): the claim says a configured decimals value that
is not a valid non-negative integer — naming `"abc"` as an example —
yields the unrounded numeric string `"21.456"`.  The code coerces
`"abc"` with `Number(…)`, gets `NaN`, and falls back to the **default**
decimals count 1, so state `"21.456"` renders as `"21.5"`, not
`"21.456"`. -/
theorem decimals_abc_counterexample :
    (computeDisplayTexts
        (.obj [("entity_id", .str "e"),
          ("number", .obj [("decimals", .str "abc")])])
        DEFAULT_CONFIG
        (some ⟨some [("e", ⟨"21.456", none⟩)], none⟩)).state_display_text
      = "21.5" ∧
    jsToNumber (.str "abc") = none ∧
    "21.5" ≠ "21.456" :=
  ⟨by decide, by decide, by decide⟩

/-- C2 (amended): with an entity configured and its state record
present, the main value text is: the raw state when it does not parse to
a finite number; `toFixed` at the configured decimals when that value
coerces to a non-negative integer; `toFixed` at the **default decimals
count 1** when the configured value does not coerce to a finite number
(e.g. `"abc"`); and the unrounded numeric string only when the value
coerces to a finite number that is not a non-negative integer (e.g. `-1`
or `1.5`). -/
theorem computeDisplayTexts_decimals
    (cfs : List (String × JVal)) (sh : JVal) (api : Option (String → TmplOutcome))
    (sts : List (String × StateObj)) (eid : String) (so : StateObj)
    (nfs : List (String × JVal)) (dec : JVal)
    (heid : JVal.lookupField cfs "entity_id" = some (.str eid))
    (hne : eid ≠ "")
    (hso : assocFind sts eid = some so)
    (hnum : JVal.lookupField cfs "number" = some (.obj nfs))
    (hdec : JVal.lookupField nfs "decimals" = some dec)
    (hdnn : dec ≠ .null) :
    (jsParseNumber so.state = none →
      (computeDisplayTexts (.obj cfs) sh (some ⟨some sts, api⟩)).state_display_text
        = so.state) ∧
    (∀ q : Q, jsParseNumber so.state = some q →
      (jsToNumber dec = none →
        (computeDisplayTexts (.obj cfs) sh (some ⟨some sts, api⟩)).state_display_text
          = jsToFixed q 1) ∧
      (∀ d : Q, jsToNumber dec = some d →
        (d.den = 1 ∧ 0 ≤ d.num →
          (computeDisplayTexts (.obj cfs) sh (some ⟨some sts, api⟩)).state_display_text
            = jsToFixed q d.num.toNat) ∧
        (¬ (d.den = 1 ∧ 0 ≤ d.num) →
          (computeDisplayTexts (.obj cfs) sh (some ⟨some sts, api⟩)).state_display_text
            = jsNumToString q))) := by
  have hval : (computeDisplayTexts (.obj cfs) sh (some ⟨some sts, api⟩)).state_display_text =
      (match jsParseNumber so.state with
       | none => so.state
       | some q =>
         let decimalsCfg : Q :=
           match jsToNumber dec with
           | some d => d
           | none => 1
         if decimalsCfg.den = 1 && decide (0 ≤ decimalsCfg.num) then
           jsToFixed q decimalsCfg.num.toNat
         else jsNumToString q) := by
    simp only [computeDisplayTexts, hassStatesOf, Option.bind, truthy_obj,
      getProp?_obj, heid, truthyOpt_some, truthy_str, hne, optChain_some,
      hnum, hdec, hso, nullish_some, hdnn, jsToString_str, Option.getD,
      Option.isSome]
    simp [hne, hso, hdnn]
  refine ⟨fun hp => ?_, fun q hq => ⟨fun hn => ?_, fun d hd => ⟨fun hvalid => ?_, fun hinv => ?_⟩⟩⟩
  · rw [hval, hp]
  · rw [hval, hq, hn]
    show (if Q.den 1 = 1 ∧ 0 ≤ Q.num 1 then jsToFixed q (Q.num 1).toNat
      else jsNumToString q) = jsToFixed q 1
    rw [if_pos (show Q.den 1 = 1 ∧ 0 ≤ Q.num 1 from ⟨rfl, by decide⟩)]
    rfl
  · rw [hval, hq, hd]
    simp [hvalid.1, hvalid.2]
  · rw [hval, hq, hd]
    rw [Classical.not_and_iff_or_not_not] at hinv
    rcases hinv with h | h <;> simp [h]

/-- C2 (witness): decimals 2 on state `"21.456"` gives `"21.46"`. -/
theorem computeDisplayTexts_decimals_witness :
    (computeDisplayTexts
        (.obj [("entity_id", .str "e"), ("number", .obj [("decimals", .num 2)])])
        .null (some ⟨some [("e", ⟨"21.456", none⟩)], none⟩)).state_display_text
      = "21.46" := by
  have h := computeDisplayTexts_decimals
    [("entity_id", .str "e"), ("number", .obj [("decimals", .num 2)])]
    .null none [("e", ⟨"21.456", none⟩)] "e" ⟨"21.456", none⟩
    [("decimals", .num 2)] (.num 2)
    rfl (by decide) rfl rfl rfl (by decide)
  have h2 := ((h.2 (⟨2682, 125⟩ : Q) (by decide)).2 2 (by decide)).1
    ⟨by decide, by decide⟩
  rw [h2]
  decide

/-! ## C3: sentinel cases of the main value -/

/-- C3: the main value's case analysis — no configured entity reference
gives the configured static text (empty when unset/null); a configured
entity with no state snapshot gives the literal `"loading"`; a present
snapshot lacking the entity key gives the literal `"unknown"`.  (The
model is a total function, so none of these cases throws or halts
rendering.) -/
theorem computeDisplayTexts_cases (config sh : JVal) (hass : Option Hass) :
    (¬ (config.truthy = true ∧ truthyOpt (config.getProp? "entity_id") = true) →
      ((config.getProp? "text" = none ∨ config.getProp? "text" = some .null →
        (computeDisplayTexts config sh hass).state_display_text = "") ∧
       (∀ t : String, config.getProp? "text" = some (.str t) →
        (computeDisplayTexts config sh hass).state_display_text = t))) ∧
    (config.truthy = true → truthyOpt (config.getProp? "entity_id") = true →
      hassStatesOf hass = none →
      (computeDisplayTexts config sh hass).state_display_text = "loading") ∧
    (∀ (sts : List (String × StateObj)) (eid : String),
      config.truthy = true → config.getProp? "entity_id" = some (.str eid) →
      eid ≠ "" → hassStatesOf hass = some sts → assocFind sts eid = none →
      (computeDisplayTexts config sh hass).state_display_text = "unknown") := by
  refine ⟨fun hno => ⟨fun htext => ?_, fun t htext => ?_⟩,
    fun hc he hs => ?_, fun sts eid hc he hne hs hfind => ?_⟩
  · have hfalse : (config.truthy && truthyOpt (config.getProp? "entity_id")) = false := by
      cases hA : config.truthy <;>
        cases hB : truthyOpt (config.getProp? "entity_id") <;> simp_all
    simp only [computeDisplayTexts, hfalse, Bool.false_and, Bool.and_self,
      Bool.not_false, if_false]
    rcases htext with h | h <;>
      simp [h, optChain_some, JVal.nullish, jsToString]
  · have hfalse : (config.truthy && truthyOpt (config.getProp? "entity_id")) = false := by
      cases hA : config.truthy <;>
        cases hB : truthyOpt (config.getProp? "entity_id") <;> simp_all
    simp only [computeDisplayTexts, hfalse, Bool.false_and, Bool.and_self,
      Bool.not_false, if_false]
    simp [htext, JVal.nullish, jsToString]
  · simp only [computeDisplayTexts, hc, he, hs, Bool.and_true, Bool.true_and]
    simp
  · simp only [computeDisplayTexts, hc, he, hs, truthyOpt_some, truthy_str,
      Bool.and_true, Bool.true_and]
    simp [hne, hfind, jsToString]

/-- C3 (witness): static text `"42"`, snapshot absent, key absent. -/
theorem computeDisplayTexts_cases_witness :
    (computeDisplayTexts (.obj [("text", .str "42")]) .null none).state_display_text
      = "42" ∧
    (computeDisplayTexts (.obj [("entity_id", .str "e")]) .null
      none).state_display_text = "loading" ∧
    (computeDisplayTexts (.obj [("entity_id", .str "e")]) .null
      (some ⟨some [], none⟩)).state_display_text = "unknown" := by
  refine ⟨?_, ?_, ?_⟩
  · exact (computeDisplayTexts_cases (.obj [("text", .str "42")]) .null none).1
      (by decide) |>.2 "42" rfl
  · exact (computeDisplayTexts_cases (.obj [("entity_id", .str "e")]) .null
      none).2.1 (by decide) (by decide) rfl
  · exact (computeDisplayTexts_cases (.obj [("entity_id", .str "e")]) .null
      (some ⟨some [], none⟩)).2.2 [] "e" (by decide) rfl (by decide) rfl rfl

/-! ## C8: animation sequencing -/

/-- C8: for a recognized animation kind, `animateValueChange` applies
exactly one "out" class immediately (after wiping any existing classes),
performs its only text write at 300 ms (none before), switches to the
"in" class at that same instant, removes it at 600 ms so no animation
classes remain from 600 ms on; an unrecognized kind sets the text
immediately with no classes. -/
theorem animateValueChange_sequencing (anim outC inC v : String)
    (init : List String)
    (hrec : animationMap anim = some (outC, inC)) :
    textSetTimes (animateValueChange v anim) = [300] ∧
    classesUpTo (animateValueChange v anim) 0 init = [outC] ∧
    classesUpTo (animateValueChange v anim) 300 init = [inC] ∧
    (∀ t, 600 ≤ t → classesUpTo (animateValueChange v anim) t init = []) ∧
    (∀ k, animationMap k = none →
      animateValueChange v k = [(0, .textSet v)]) := by
  refine ⟨?_, ?_, ?_, fun t ht => ?_, fun k hk => ?_⟩
  · simp [animateValueChange, hrec, textSetTimes]
  · simp [animateValueChange, hrec, classesUpTo]
  · simp [animateValueChange, hrec, classesUpTo]
  · have h0 : (0 : Nat) ≤ t := Nat.zero_le t
    have h3 : (300 : Nat) ≤ t := by omega
    simp [animateValueChange, hrec, classesUpTo, h0, h3, ht]
  · simp [animateValueChange, hk]

/-- C8 (witness): the `fade` kind at a concrete state, plus the
unrecognized kind `bounce`. -/
theorem animateValueChange_sequencing_witness :
    textSetTimes (animateValueChange "7" "fade") = [300] ∧
    classesUpTo (animateValueChange "7" "fade") 0 ["x"] = ["animate-fade-out"] ∧
    classesUpTo (animateValueChange "7" "fade") 300 ["x"] = ["animate-fade-in"] ∧
    classesUpTo (animateValueChange "7" "fade") 700 ["x"] = [] ∧
    animateValueChange "7" "bounce" = [(0, .textSet "7")] := by
  have h := animateValueChange_sequencing "fade" "animate-fade-out"
    "animate-fade-in" "7" ["x"] rfl
  exact ⟨h.1, h.2.1, h.2.2.1, h.2.2.2.1 700 (by omega), h.2.2.2.2 "bounce" rfl⟩

/-! ## C9: font loader -/

/-- C9 (counterexample): the claim says a label absent from the registry
is never a cause of injection but is always marked as requested.  The
empty label `""` is absent from the registry, yet the falsy-guard
`if (!font …) return` exits before marking, so it is **not** marked. -/
theorem loadFont_empty_label_counterexample :
    assocFind FONT_REGISTRY "" = none ∧
    loadFont [] "" = ([], []) ∧
    (loadFont [] "").1.contains "" = false := by
  refine ⟨by decide, by decide, by decide⟩

/-- A successful `assocFind` returns a member of the list. -/
theorem assocFind_mem {α : Type} {l : List (String × α)} {k : String} {v : α}
    (h : assocFind l k = some v) : (k, v) ∈ l := by
  induction l with
  | nil => simp [assocFind] at h
  | cons p rest ih =>
    obtain ⟨k', v'⟩ := p
    by_cases hk : k' = k
    · subst hk
      simp [assocFind] at h
      simp [h]
    · simp [assocFind, hk] at h
      simp [ih h]

/-- Every URL in the registry is a nonempty string (so the `if (fontUrl)`
truthiness test passes exactly on the non-`null` entries). -/
theorem registry_url_ne_empty (f url : String)
    (h : assocFind FONT_REGISTRY f = some (some url)) : url ≠ "" := by
  have hall : ∀ p ∈ FONT_REGISTRY, ∀ u : String, p.2 = some u → u ≠ "" := by
    decide
  exact hall _ (assocFind_mem h) url rfl

/-- A request for a font already in the loaded set does nothing. -/
theorem loadFont_noop_of_mem (loaded : List String) (f : String)
    (h : loaded.contains f = true) : loadFont loaded f = (loaded, []) := by
  by_cases h1 : f = "" ∨ f = "Home Assistant"
  · simp [loadFont, h1]
  · have h' : f ∈ loaded := by simpa using h
    simp [loadFont, h1, h']

/-- Repeated identical requests after the first are no-ops. -/
theorem loadFontSeq_noop (m : Nat) (loaded : List String) (f : String)
    (h : loaded.contains f = true) :
    loadFontSeq loaded (List.replicate m f) = (loaded, []) := by
  induction m with
  | zero => rfl
  | succ m ih =>
    simp [List.replicate, loadFontSeq, loadFont_noop_of_mem loaded f h, ih]

/-- C9 (amended): per-label idempotence of the font loader — the default
label `"Home Assistant"` never injects; a registry label with a non-null
URL injects its stylesheet exactly once over any number of requests; a
**nonempty** label absent from the registry injects nothing but is
marked as requested (the empty label is silently ignored, see the
counterexample). -/
theorem loadFont_idempotent :
    (∀ (loaded : List String) (n : Nat),
      loadFontSeq loaded (List.replicate n "Home Assistant") = (loaded, [])) ∧
    (∀ (f url : String) (loaded : List String) (n : Nat),
      assocFind FONT_REGISTRY f = some (some url) →
      loaded.contains f = false → 1 ≤ n →
      loadFontSeq loaded (List.replicate n f) = (loaded ++ [f], [url])) ∧
    (∀ (f : String) (loaded : List String) (n : Nat),
      assocFind FONT_REGISTRY f = none → f ≠ "" →
      loaded.contains f = false → 1 ≤ n →
      loadFontSeq loaded (List.replicate n f) = (loaded ++ [f], [])) := by
  have hseq : ∀ (loaded : List String) (f : String) (m : Nat),
      loadFontSeq loaded (List.replicate (m + 1) f) =
        (let r := loadFont loaded f
         let r2 := loadFontSeq r.1 (List.replicate m f)
         (r2.1, r.2 ++ r2.2)) := by
    intro loaded f m
    rfl
  refine ⟨fun loaded n => ?_, fun f url loaded n hreg hmem hn => ?_,
    fun f loaded n hreg hne hmem hn => ?_⟩
  · induction n with
    | zero => rfl
    | succ m ih =>
      have hHA : loadFont loaded "Home Assistant" = (loaded, []) := by
        simp [loadFont]
      rw [hseq, hHA]
      simpa using ih
  · obtain ⟨m, rfl⟩ : ∃ m, n = m + 1 := ⟨n - 1, by omega⟩
    have hne : f ≠ "" := by
      rintro rfl
      simp [FONT_REGISTRY, assocFind] at hreg
    have hha : f ≠ "Home Assistant" := by
      rintro rfl
      simp [FONT_REGISTRY, assocFind] at hreg
    have hurl := registry_url_ne_empty f url hreg
    have hmem' : f ∉ loaded := by simpa using hmem
    have hfirst : loadFont loaded f = (loaded ++ [f], [url]) := by
      simp [loadFont, hne, hha, hmem', hreg, hurl]
    rw [hseq, hfirst]
    simp [loadFontSeq_noop m (loaded ++ [f]) f (by simp)]
  · obtain ⟨m, rfl⟩ : ∃ m, n = m + 1 := ⟨n - 1, by omega⟩
    have hha : f ≠ "Home Assistant" := by
      rintro rfl
      simp [FONT_REGISTRY, assocFind] at hreg
    have hmem' : f ∉ loaded := by simpa using hmem
    have hfirst : loadFont loaded f = (loaded ++ [f], []) := by
      simp [loadFont, hne, hha, hmem', hreg]
    rw [hseq, hfirst]
    simp [loadFontSeq_noop m (loaded ++ [f]) f (by simp)]

/-- C9 (witness): three requests for `Rubik` inject one stylesheet; the
default label and an unregistered label at concrete inputs. -/
theorem loadFont_idempotent_witness :
    loadFontSeq [] (List.replicate 3 "Rubik") =
      (["Rubik"],
       ["https://fonts.googleapis.com/css2?family=Rubik:wght@300;400;500;700&display=swap"]) ∧
    loadFontSeq [] (List.replicate 5 "Home Assistant") = ([], []) ∧
    loadFontSeq [] (List.replicate 2 "Comic Sans") = (["Comic Sans"], []) := by
  refine ⟨?_, ?_, ?_⟩
  · simpa using loadFont_idempotent.2.1 "Rubik"
      "https://fonts.googleapis.com/css2?family=Rubik:wght@300;400;500;700&display=swap"
      [] 3 (by decide) (by decide) (by omega)
  · exact loadFont_idempotent.1 [] 5
  · simpa using loadFont_idempotent.2.2 "Comic Sans" [] 2 (by decide)
      (by decide) (by decide) (by omega)

/-! ## Merge clone lemmas

`deepMerge({}, v)` (the constructor's clone) rebuilds an equal tree when
the source is a well-formed object. -/

@[simp] theorem keysNodup_cons (k : String) (ks : List String) :
    keysNodup (k :: ks) = (!ks.contains k && keysNodup ks) := rfl

@[simp] theorem wfFields_cons (k : String) (v : JVal)
    (rest : List (String × JVal)) :
    wfFields ((k, v) :: rest) = (wfJ v && wfFields rest) := by
  rw [wfFields]

/-- Writing a fresh key appends it. -/
theorem setFields_fresh (fs : List (String × JVal)) (k : String) (v : JVal)
    (h : k ∉ fs.map Prod.fst) :
    JVal.setFields fs k v = fs ++ [(k, v)] := by
  induction fs with
  | nil => rfl
  | cons p rest ih =>
    obtain ⟨k', v'⟩ := p
    have hne : ¬ k' = k := fun he => h (by simp [he])
    have htail : k ∉ rest.map Prod.fst := fun hm => h (by simp [hm])
    rw [JVal.setFields, if_neg hne, ih htail]
    rfl

/-- One step of the `Object.keys` loop. -/
theorem applyFields_cons (t out : JVal) (k : String) (v : JVal)
    (rest : List (String × JVal)) :
    JVal.applyFields t out ((k, v) :: rest) =
      JVal.applyFields t (out.setProp k (stepVal t k v)) rest := rfl

/-- Unfolding of `deepMerge` at an object source. -/
theorem deepMerge_obj (t : JVal) (fs : List (String × JVal)) :
    JVal.deepMerge t (.obj fs) = JVal.applyFields t t.copyTarget fs := rfl

/-- The loop of `deepMerge` over a target with no usable child targets
(`null`, or the empty object) is a pure append of the (fresh-keyed)
source fields. -/
theorem applyFields_clone (n : Nat) :
    ∀ (t : JVal) (done fs : List (String × JVal)),
      sizeOf fs ≤ n →
      (∀ k, JVal.childTarget t k = .null) →
      keysNodup (fs.map Prod.fst) = true →
      (∀ k, k ∈ fs.map Prod.fst → k ∉ done.map Prod.fst) →
      wfFields fs = true →
      JVal.applyFields t (.obj done) fs = .obj (done ++ fs) := by
  induction n with
  | zero =>
    intro t done fs hsz hct hnd hfree hwf
    cases fs with
    | nil => simp [JVal.applyFields]
    | cons p rest => simp at hsz
  | succ n ih =>
    intro t done fs hsz hct hnd hfree hwf
    cases fs with
    | nil => simp [JVal.applyFields]
    | cons p rest =>
      obtain ⟨k, v⟩ := p
      have hnv : stepVal t k v = v := by
        cases v with
        | obj gs =>
          show JVal.deepMerge (JVal.childTarget t k) (.obj gs) = .obj gs
          rw [hct k, deepMerge_obj]
          simp only [wfFields_cons, wfJ, Bool.and_eq_true] at hwf
          have := ih JVal.null [] gs (by simp at hsz ⊢; omega)
            (fun k' => rfl) hwf.1.1 (by simp) hwf.1.2
          simpa [JVal.copyTarget] using this
        | null => rfl
        | bool b => rfl
        | num q => rfl
        | str s => rfl
        | arr xs => rfl
      rw [applyFields_cons, hnv]
      have hkfresh : k ∉ done.map Prod.fst := hfree k (by simp)
      show JVal.applyFields t (.obj (JVal.setFields done k v)) rest = _
      rw [setFields_fresh done k v hkfresh]
      have hknotrest : k ∉ rest.map Prod.fst := by
        simp at hnd
        simpa using hnd.1
      have := ih t (done ++ [(k, v)]) rest (by simp at hsz ⊢; omega) hct
        (by simp at hnd; exact hnd.2)
        (by
          intro k' hk'
          have h1 := hfree k' (by simp [hk'])
          simp [h1]
          rintro rfl
          exact hknotrest hk')
        (by simp at hwf; exact hwf.2)
      rw [this]
      simp

/-- `deepMerge({}, source)` clones a well-formed object tree. -/
theorem deepMerge_empty_clone (fs : List (String × JVal))
    (hwf : wfJ (.obj fs) = true) :
    JVal.deepMerge (.obj []) (.obj fs) = .obj fs := by
  rw [deepMerge_obj]
  simp only [wfJ, Bool.and_eq_true] at hwf
  have h := applyFields_clone (sizeOf fs) (.obj []) [] fs le_rfl
    (fun k => rfl) hwf.1 (by simp) hwf.2
  simpa [JVal.copyTarget] using h

/-! ## C10: constructor defaults -/

/-- C10: the constructor initializes both the effective and the shadow
configuration to a deep clone of `DEFAULT_CONFIG` (value-equal to it; the
clone shares no mutable structure in JS, which the pure model renders as
plain equality), so a `hass` push arriving before any `setConfig` takes
the no-entity branch with the empty static text — value text `""` for
every possible `hass` — and every nested configuration group is
present. -/
theorem initialState_defaults (h : Option Hass) :
    (initialState h).config = DEFAULT_CONFIG ∧
    (initialState h).shadowConfig = DEFAULT_CONFIG ∧
    (computeDisplayTexts (initialState h).config (initialState h).shadowConfig
      h).state_display_text = "" ∧
    (∃ fs, JVal.getProp? (initialState h).config "number" = some (.obj fs)) ∧
    (∃ fs, JVal.getProp? (initialState h).config "unit_of_measurement" = some (.obj fs)) ∧
    (∃ fs, JVal.getProp? (initialState h).config "title" = some (.obj fs)) ∧
    (∃ fs, JVal.getProp? (initialState h).config "subtitle" = some (.obj fs)) ∧
    (∃ fs, JVal.getProp? (initialState h).config "card" = some (.obj fs)) := by
  have hwf : wfJ DEFAULT_CONFIG = true := by
    simp [DEFAULT_CONFIG, wfJ, wfFields, keysNodup]
  have hclone : deepMerge (.obj []) DEFAULT_CONFIG = DEFAULT_CONFIG :=
    deepMerge_empty_clone _ hwf
  have hcfg : (initialState h).config = DEFAULT_CONFIG := hclone
  have hsh : (initialState h).shadowConfig = DEFAULT_CONFIG := by
    show deepMerge (.obj []) (deepMerge (.obj []) DEFAULT_CONFIG) = DEFAULT_CONFIG
    rw [hclone, hclone]
  refine ⟨hcfg, hsh, ?_, ?_, ?_, ?_, ?_, ?_⟩
  · rw [hcfg, hsh]
    simp [computeDisplayTexts, DEFAULT_CONFIG, JVal.lookupField, JVal.nullish,
      jsToString, JVal.truthy]
  · rw [hcfg]
    exact ⟨_, rfl⟩
  · rw [hcfg]
    exact ⟨_, rfl⟩
  · rw [hcfg]
    exact ⟨_, rfl⟩
  · rw [hcfg]
    exact ⟨_, rfl⟩
  · rw [hcfg]
    exact ⟨_, rfl⟩


/-! ## Association-list write/read lemmas -/

theorem lookupField_setFields_same (fs : List (String × JVal)) (k : String)
    (v : JVal) : JVal.lookupField (JVal.setFields fs k v) k = some v := by
  induction fs with
  | nil => simp [JVal.setFields, JVal.lookupField]
  | cons p rest ih =>
    obtain ⟨k', v'⟩ := p
    by_cases hk : k' = k
    · simp [JVal.setFields, hk, JVal.lookupField]
    · simp [JVal.setFields, hk, JVal.lookupField, ih]

theorem lookupField_setFields_other (fs : List (String × JVal)) (k k' : String)
    (v : JVal) (h : k ≠ k') :
    JVal.lookupField (JVal.setFields fs k v) k' = JVal.lookupField fs k' := by
  induction fs with
  | nil => simp [JVal.setFields, JVal.lookupField, h]
  | cons p rest ih =>
    obtain ⟨k1, v1⟩ := p
    by_cases hk : k1 = k
    · simp [JVal.setFields, hk, JVal.lookupField, h]
    · simp [JVal.setFields, hk, JVal.lookupField, ih]

theorem setFields_setFields_same (fs : List (String × JVal)) (k : String)
    (a b : JVal) :
    JVal.setFields (JVal.setFields fs k a) k b = JVal.setFields fs k b := by
  induction fs with
  | nil => simp [JVal.setFields]
  | cons p rest ih =>
    obtain ⟨k1, v1⟩ := p
    by_cases hk : k1 = k
    · simp [JVal.setFields, hk]
    · simp [JVal.setFields, hk, ih]

/-- A string with a template marker is nonempty. -/
theorem hasTmplMarkers_ne_empty {s : String} (h : hasTmplMarkers s = true) :
    s ≠ "" := by
  rintro rfl
  exact absurd h (by decide)

/-- The card section on a marker-free nonempty string copies it
verbatim without any host call. -/
theorem applyCardSection_copy (cfs ccfs sfs scfs : List (String × JVal))
    (api : Option (String → TmplOutcome)) (s : String)
    (hc : JVal.lookupField cfs "card" = some (.obj ccfs))
    (hbg : JVal.lookupField ccfs "background" = some (.str s))
    (hsc : JVal.lookupField sfs "card" = some (.obj scfs))
    (hs : s ≠ "") (hm : hasTmplMarkers s = false) :
    applyCardSection (.obj cfs) (.obj sfs) api =
      (.obj (JVal.setFields sfs "card"
        (.obj (JVal.setFields scfs "background" (.str s)))), []) := by
  simp [applyCardSection, setPath2, JVal.setProp, JVal.jsOr, hc, hbg, hsc,
    hs, hm, lookupField_setFields_same, setFields_setFields_same]

/-- The card section on a templated (marker-carrying) string resolves
through the host per `cardResolve` and records one host call when a host
is available. -/
theorem applyCardSection_tmpl (cfs ccfs sfs scfs : List (String × JVal))
    (api : Option (String → TmplOutcome)) (s : String)
    (hc : JVal.lookupField cfs "card" = some (.obj ccfs))
    (hbg : JVal.lookupField ccfs "background" = some (.str s))
    (hsc : JVal.lookupField sfs "card" = some (.obj scfs))
    (hm : hasTmplMarkers s = true) :
    applyCardSection (.obj cfs) (.obj sfs) api =
      (.obj (JVal.setFields sfs "card"
        (.obj (JVal.setFields scfs "background"
          (cardResolve ((JVal.lookupField scfs "background").getD .null) s api)))),
       if api.isSome then [s] else []) := by
  have hs := hasTmplMarkers_ne_empty hm
  cases api with
  | none =>
    simp [applyCardSection, cardResolve, setPath2, JVal.setProp, JVal.jsOr,
      hc, hbg, hsc, hs, hm, lookupField_setFields_same, setFields_setFields_same]
  | some f =>
    cases hf : f s with
    | ok v =>
      cases v <;>
        simp [applyCardSection, cardResolve, setPath2, JVal.setProp, JVal.jsOr,
          hc, hbg, hsc, hs, hm, hf, lookupField_setFields_same,
          setFields_setFields_same] <;>
        split <;> simp [JVal.jsOr]
    | err =>
      simp [applyCardSection, cardResolve, setPath2, JVal.setProp, JVal.jsOr,
        hc, hbg, hsc, hs, hm, hf, lookupField_setFields_same,
        setFields_setFields_same]

/-- A title/subtitle section on a marker-free string copies it verbatim
(without any host call), whatever the previous shadow value. -/
theorem applyTextSection_copy (cfs tcfs sfs stfs : List (String × JVal))
    (api : Option (String → TmplOutcome)) (sect : String) (t : String)
    (hc : JVal.lookupField cfs sect = some (.obj tcfs))
    (htx : JVal.lookupField tcfs "text" = some (.str t))
    (hst : JVal.lookupField sfs sect = some (.obj stfs))
    (hm : hasTmplMarkers t = false) :
    applyTextSection (.obj cfs) (.obj sfs) sect api =
      (.obj (JVal.setFields sfs sect
        (.obj (JVal.setFields stfs "text" (.str t)))), []) := by
  simp [applyTextSection, setPath2, JVal.setProp, JVal.jsOr, hc, htx, hst,
    hm, lookupField_setFields_same, setFields_setFields_same]

/-- A title/subtitle section on a templated string resolves through the
host per `textResolve` (verbatim storage of any string result — no trim,
no empty check) and records one host call when a host is available. -/
theorem applyTextSection_tmpl (cfs tcfs sfs stfs : List (String × JVal))
    (api : Option (String → TmplOutcome)) (sect : String) (t : String)
    (hc : JVal.lookupField cfs sect = some (.obj tcfs))
    (htx : JVal.lookupField tcfs "text" = some (.str t))
    (hst : JVal.lookupField sfs sect = some (.obj stfs))
    (hm : hasTmplMarkers t = true) :
    applyTextSection (.obj cfs) (.obj sfs) sect api =
      (.obj (JVal.setFields sfs sect
        (.obj (JVal.setFields stfs "text"
          (textResolve ((JVal.lookupField stfs "text").getD .null) t api)))),
       if api.isSome then [t] else []) := by
  have ht := hasTmplMarkers_ne_empty hm
  cases api with
  | none =>
    simp [applyTextSection, textResolve, setPath2, JVal.setProp, JVal.jsOr,
      hc, htx, hst, ht, hm, lookupField_setFields_same, setFields_setFields_same]
  | some f =>
    cases hf : f t with
    | ok v =>
      cases v <;>
        simp [applyTextSection, textResolve, setPath2, JVal.setProp, JVal.jsOr,
          hc, htx, hst, ht, hm, hf, lookupField_setFields_same,
          setFields_setFields_same]
    | err =>
      simp [applyTextSection, textResolve, setPath2, JVal.setProp, JVal.jsOr,
        hc, htx, hst, ht, hm, hf, lookupField_setFields_same,
        setFields_setFields_same]


/-- C5 (counterexample): the claim says a marker-free string field is
copied verbatim into the shadow configuration.  A marker-free card
background that is the empty string is **not** copied when the shadow
already holds something truthy: the skip guard
`if (!tpl && this.shadowConfig.card[key]) continue` fires first, so the
shadow keeps its old value `"red"` instead of the configured `""`.  (No
host call is made, as claimed.) -/
theorem applyTemplates_verbatim_counterexample :
    hasTmplMarkers "" = false ∧
    applyTemplates (.obj [("card", .obj [("background", .str "")])])
        (.obj [("card", .obj [("background", .str "red")])]) none =
      (.obj [("card", .obj [("background", .str "red")])], []) ∧
    JVal.str "red" ≠ .str "" := by
  refine ⟨by decide, by decide, by decide⟩

/-- C5 (amended): with all three sections and their templatable fields
present as marker-free strings — the card background moreover nonempty,
the case the counterexample excludes — `applyTemplates` copies each of
the three values verbatim into the shadow configuration and makes no
host call, so those shadow fields equal the effective configured
values. -/
theorem applyTemplates_verbatim
    (cfs ccfs tcfs ucfs sfs scfs stfs sufs : List (String × JVal))
    (api : Option (String → TmplOutcome)) (s t u : String)
    (hc : JVal.lookupField cfs "card" = some (.obj ccfs))
    (hbg : JVal.lookupField ccfs "background" = some (.str s))
    (ht : JVal.lookupField cfs "title" = some (.obj tcfs))
    (htx : JVal.lookupField tcfs "text" = some (.str t))
    (hu : JVal.lookupField cfs "subtitle" = some (.obj ucfs))
    (hux : JVal.lookupField ucfs "text" = some (.str u))
    (hsc : JVal.lookupField sfs "card" = some (.obj scfs))
    (hst : JVal.lookupField sfs "title" = some (.obj stfs))
    (hsu : JVal.lookupField sfs "subtitle" = some (.obj sufs))
    (hms : hasTmplMarkers s = false) (hmt : hasTmplMarkers t = false)
    (hmu : hasTmplMarkers u = false) (hs : s ≠ "") :
    applyTemplates (.obj cfs) (.obj sfs) api =
      (.obj (JVal.setFields (JVal.setFields (JVal.setFields sfs "card"
          (.obj (JVal.setFields scfs "background" (.str s))))
        "title" (.obj (JVal.setFields stfs "text" (.str t))))
        "subtitle" (.obj (JVal.setFields sufs "text" (.str u)))), []) := by
  have h1 := applyCardSection_copy cfs ccfs sfs scfs api s hc hbg hsc hs hms
  have hst2 : JVal.lookupField (JVal.setFields sfs "card" (.obj (JVal.setFields scfs "background" (.str s))))
      "title" = some (.obj stfs) := by
    rw [lookupField_setFields_other sfs "card" "title" _ (by decide)]
    exact hst
  have h2 := applyTextSection_copy cfs tcfs
      (JVal.setFields sfs "card" (.obj (JVal.setFields scfs "background" (.str s)))) stfs api "title" t ht htx hst2 hmt
  have hsu2 : JVal.lookupField
      (JVal.setFields (JVal.setFields sfs "card" (.obj (JVal.setFields scfs "background" (.str s)))) "title" (.obj (JVal.setFields stfs "text" (.str t))))
      "subtitle" = some (.obj sufs) := by
    rw [lookupField_setFields_other _ "title" "subtitle" _ (by decide),
      lookupField_setFields_other sfs "card" "subtitle" _ (by decide)]
    exact hsu
  have h3 := applyTextSection_copy cfs ucfs
      (JVal.setFields (JVal.setFields sfs "card" (.obj (JVal.setFields scfs "background" (.str s)))) "title" (.obj (JVal.setFields stfs "text" (.str t))))
      sufs api "subtitle" u hu hux hsu2 hmu
  simp [applyTemplates, h1, h2, h3]

/-- C5 (witness). -/
theorem applyTemplates_verbatim_witness :
    applyTemplates
      (.obj [("card", .obj [("background", .str "blue")]),
             ("title", .obj [("text", .str "T")]),
             ("subtitle", .obj [("text", .str "S")])])
      (.obj [("card", .obj []), ("title", .obj []), ("subtitle", .obj [])])
      none =
    (.obj [("card", .obj [("background", .str "blue")]),
           ("title", .obj [("text", .str "T")]),
           ("subtitle", .obj [("text", .str "S")])], []) :=
  (applyTemplates_verbatim
    [("card", .obj [("background", .str "blue")]),
     ("title", .obj [("text", .str "T")]),
     ("subtitle", .obj [("text", .str "S")])]
    [("background", .str "blue")] [("text", .str "T")] [("text", .str "S")]
    [("card", .obj []), ("title", .obj []), ("subtitle", .obj [])]
    [] [] [] none "blue" "T" "S"
    (by decide) (by decide) (by decide) (by decide) (by decide) (by decide)
    (by decide) (by decide) (by decide) (by decide) (by decide) (by decide)
    (by decide)).trans (by decide)

/-- C4 (counterexample): the claim says a successful host call stores
the **trimmed** result for each of the three templatable fields.  For
the title text the code stores the raw string result verbatim: a host
result `" hi "` is stored as `" hi "`, not as its trim `"hi"`. -/
theorem applyTemplates_trim_counterexample :
    hasTmplMarkers "\x7b\x7b x \x7d\x7d" = true ∧
    applyTemplates
        (.obj [("title", .obj [("text", .str "\x7b\x7b x \x7d\x7d")])])
        (.obj [("title", .obj [])])
        (some (fun _ => .ok (.str " hi "))) =
      (.obj [("title", .obj [("text", .str " hi ")])], ["\x7b\x7b x \x7d\x7d"]) ∧
    jsTrim " hi " = "hi" ∧ JVal.str " hi " ≠ .str "hi" := by
  refine ⟨by decide, by decide, by decide, by decide⟩

/-- C4 (amended): with all three templatable fields present as
marker-carrying strings, `applyTemplates` resolves each through the
host (one call per field when a host is available, none otherwise) and
stores per field: the card background keeps a successful string result
trimmed when the trim is nonempty, and otherwise falls back to
`previous shadow value || raw template`; the title and subtitle texts
keep any successful string result **verbatim** (untrimmed, even when
empty) and fall back to `previous shadow value || raw template` only on
a non-string result, a failure, or a missing host. -/
theorem applyTemplates_template_fields
    (cfs ccfs tcfs ucfs sfs scfs stfs sufs : List (String × JVal))
    (api : Option (String → TmplOutcome)) (s t u : String)
    (hc : JVal.lookupField cfs "card" = some (.obj ccfs))
    (hbg : JVal.lookupField ccfs "background" = some (.str s))
    (ht : JVal.lookupField cfs "title" = some (.obj tcfs))
    (htx : JVal.lookupField tcfs "text" = some (.str t))
    (hu : JVal.lookupField cfs "subtitle" = some (.obj ucfs))
    (hux : JVal.lookupField ucfs "text" = some (.str u))
    (hsc : JVal.lookupField sfs "card" = some (.obj scfs))
    (hst : JVal.lookupField sfs "title" = some (.obj stfs))
    (hsu : JVal.lookupField sfs "subtitle" = some (.obj sufs))
    (hms : hasTmplMarkers s = true) (hmt : hasTmplMarkers t = true)
    (hmu : hasTmplMarkers u = true) :
    applyTemplates (.obj cfs) (.obj sfs) api =
      (.obj (JVal.setFields (JVal.setFields (JVal.setFields sfs "card"
          (.obj (JVal.setFields scfs "background" (cardResolve ((JVal.lookupField scfs "background").getD .null) s api))))
        "title" (.obj (JVal.setFields stfs "text" (textResolve ((JVal.lookupField stfs "text").getD .null) t api))))
        "subtitle" (.obj (JVal.setFields sufs "text" (textResolve ((JVal.lookupField sufs "text").getD .null) u api)))),
       if api.isSome then [s, t, u] else []) := by
  have h1 := applyCardSection_tmpl cfs ccfs sfs scfs api s hc hbg hsc hms
  have hst2 : JVal.lookupField (JVal.setFields sfs "card" (.obj (JVal.setFields scfs "background" (cardResolve ((JVal.lookupField scfs "background").getD .null) s api))))
      "title" = some (.obj stfs) := by
    rw [lookupField_setFields_other sfs "card" "title" _ (by decide)]
    exact hst
  have h2 := applyTextSection_tmpl cfs tcfs
      (JVal.setFields sfs "card" (.obj (JVal.setFields scfs "background" (cardResolve ((JVal.lookupField scfs "background").getD .null) s api)))) stfs api "title" t ht htx hst2 hmt
  have hsu2 : JVal.lookupField
      (JVal.setFields (JVal.setFields sfs "card" (.obj (JVal.setFields scfs "background" (cardResolve ((JVal.lookupField scfs "background").getD .null) s api)))) "title" (.obj (JVal.setFields stfs "text" (textResolve ((JVal.lookupField stfs "text").getD .null) t api))))
      "subtitle" = some (.obj sufs) := by
    rw [lookupField_setFields_other _ "title" "subtitle" _ (by decide),
      lookupField_setFields_other sfs "card" "subtitle" _ (by decide)]
    exact hsu
  have h3 := applyTextSection_tmpl cfs ucfs
      (JVal.setFields (JVal.setFields sfs "card" (.obj (JVal.setFields scfs "background" (cardResolve ((JVal.lookupField scfs "background").getD .null) s api)))) "title" (.obj (JVal.setFields stfs "text" (textResolve ((JVal.lookupField stfs "text").getD .null) t api))))
      sufs api "subtitle" u hu hux hsu2 hmu
  cases api <;> simp [applyTemplates, h1, h2, h3]

/-- C4 (witness). -/
theorem applyTemplates_template_fields_witness :
    applyTemplates
      (.obj [("card", .obj [("background", .str "\x7b\x7b v \x7d\x7d")]),
             ("title", .obj [("text", .str "\x7b\x7b v \x7d\x7d")]),
             ("subtitle", .obj [("text", .str "\x7b\x7b v \x7d\x7d")])])
      (.obj [("card", .obj []), ("title", .obj []), ("subtitle", .obj [])])
      none =
    (.obj [("card", .obj [("background", .str "\x7b\x7b v \x7d\x7d")]),
           ("title", .obj [("text", .str "\x7b\x7b v \x7d\x7d")]),
           ("subtitle", .obj [("text", .str "\x7b\x7b v \x7d\x7d")])], []) :=
  (applyTemplates_template_fields
    [("card", .obj [("background", .str "\x7b\x7b v \x7d\x7d")]),
     ("title", .obj [("text", .str "\x7b\x7b v \x7d\x7d")]),
     ("subtitle", .obj [("text", .str "\x7b\x7b v \x7d\x7d")])]
    [("background", .str "\x7b\x7b v \x7d\x7d")] [("text", .str "\x7b\x7b v \x7d\x7d")]
    [("text", .str "\x7b\x7b v \x7d\x7d")]
    [("card", .obj []), ("title", .obj []), ("subtitle", .obj [])]
    [] [] [] none "\x7b\x7b v \x7d\x7d" "\x7b\x7b v \x7d\x7d" "\x7b\x7b v \x7d\x7d"
    (by decide) (by decide) (by decide) (by decide) (by decide) (by decide)
    (by decide) (by decide) (by decide) (by decide) (by decide)
    (by decide)).trans (by decide)


/-- C6: the change gate.  (a) A pass whose freshly computed main-value
text equals the previously displayed one is skipped entirely: the state
is unchanged and no host call, no DOM write and no class change happen
(`shouldUpdate` is evaluated before `applyTemplates`).  (b) Hence
pushing the same data twice in a row is inert on the second push: the
state reached by any `updateContent` pass is a fixed point of
`updateContent` with empty effects.  (c) A first render (no previous
value) performs exactly one DOM text write and no class changes. -/
theorem updateContent_change_gate :
    (∀ (s : CardState) (p : String),
        s.previousDisplayValue = some p →
        (computeDisplayTexts s.config s.shadowConfig s.hass).state_display_text
          = p →
        updateContent s = (s, Effects.none)) ∧
    (∀ s : CardState,
        updateContent (updateContent s).1 =
          ((updateContent s).1, Effects.none)) ∧
    (∀ s : CardState, s.previousDisplayValue = none →
        ∃ t, (updateContent s).2.events = [(0, DomEvent.textSet t)]) := by
  refine ⟨?_, ?_, ?_⟩
  · intro s p hprev hsame
    have hg : shouldUpdate s = false := by simp [shouldUpdate, hprev, hsame]
    simp [updateContent, hg]
  · intro s
    cases hgb : shouldUpdate s with
    | false => simp [updateContent, hgb]
    | true =>
      rcases hap : applyTemplates s.config s.shadowConfig (hassCallApiOf s.hass)
        with ⟨sh, calls⟩
      have hg2 : shouldUpdate
          { s with shadowConfig := sh,
                   previousDisplayValue :=
                     some (computeDisplayTexts s.config sh
                       s.hass).state_display_text } = false := by
        simp [shouldUpdate]
      simp [updateContent, hgb, hap, updateNumberDisplay, hg2]
  · intro s hprev
    have hg : shouldUpdate s = true := by simp [shouldUpdate, hprev]
    rcases hap : applyTemplates s.config s.shadowConfig (hassCallApiOf s.hass)
      with ⟨sh, calls⟩
    refine ⟨(computeDisplayTexts s.config sh s.hass).state_display_text, ?_⟩
    simp [updateContent, hg, hap, updateNumberDisplay, hprev]

/-- C6 (witness). -/
theorem updateContent_change_gate_witness :
    updateContent ⟨.null, .null, none, some ""⟩ =
      (⟨.null, .null, none, some ""⟩, Effects.none) ∧
    updateContent (updateContent ⟨.null, .null, none, none⟩).1 =
      ((updateContent ⟨.null, .null, none, none⟩).1, Effects.none) ∧
    ∃ t, (updateContent ⟨.null, .null, none, none⟩).2.events =
      [(0, DomEvent.textSet t)] :=
  ⟨updateContent_change_gate.1 ⟨.null, .null, none, some ""⟩ "" rfl (by decide),
   updateContent_change_gate.2.1 ⟨.null, .null, none, none⟩,
   updateContent_change_gate.2.2 ⟨.null, .null, none, none⟩ rfl⟩


/-! ## Association-list and key-set lemmas for the merge loop -/

theorem lookupField_none_of_not_mem (fs : List (String × JVal)) (k : String)
    (h : k ∉ fs.map Prod.fst) : JVal.lookupField fs k = none := by
  induction fs with
  | nil => rfl
  | cons p rest ih =>
    obtain ⟨k', v'⟩ := p
    have h1 : ¬ k' = k := fun he => h (by simp [he])
    have h2 : k ∉ rest.map Prod.fst := fun hm => h (by simp [hm])
    simp [JVal.lookupField, h1, ih h2]

theorem lookupField_isNone_iff (fs : List (String × JVal)) (k : String) :
    (JVal.lookupField fs k).isNone = true ↔ k ∉ fs.map Prod.fst := by
  induction fs with
  | nil => simp [JVal.lookupField]
  | cons p rest ih =>
    obtain ⟨k', v'⟩ := p
    by_cases hk : k' = k
    · simp [JVal.lookupField, hk]
    · simp [JVal.lookupField, hk, ih, Ne.symm hk]

theorem lookupField_mem {fs : List (String × JVal)} {k : String} {v : JVal}
    (h : JVal.lookupField fs k = some v) : (k, v) ∈ fs := by
  induction fs with
  | nil => simp [JVal.lookupField] at h
  | cons p rest ih =>
    obtain ⟨k', v'⟩ := p
    by_cases hk : k' = k
    · subst hk
      simp [JVal.lookupField] at h
      simp [h]
    · simp [JVal.lookupField, hk] at h
      simp [ih h]

theorem keysNodup_iff (ks : List String) :
    keysNodup ks = true ↔ ks.Nodup := by
  induction ks with
  | nil => simp [keysNodup]
  | cons k rest ih => simp [keysNodup, ih]

theorem lookupField_of_mem_nodup {fs : List (String × JVal)} {k : String}
    {v : JVal} (hnd : keysNodup (fs.map Prod.fst) = true) (h : (k, v) ∈ fs) :
    JVal.lookupField fs k = some v := by
  induction fs with
  | nil => simp at h
  | cons p rest ih =>
    obtain ⟨k', v'⟩ := p
    simp [keysNodup] at hnd
    rcases List.mem_cons.mp h with he | hm
    · obtain ⟨rfl, rfl⟩ := Prod.mk.injEq .. ▸ he
      simp [JVal.lookupField]
    · have hne : ¬ k' = k := by
        rintro rfl
        exact hnd.1 v hm
      simp [JVal.lookupField, hne, ih hnd.2 hm]

theorem setFields_map_replace (fs : List (String × JVal)) (k : String)
    (v : JVal) (hnd : keysNodup (fs.map Prod.fst) = true)
    (hmem : k ∈ fs.map Prod.fst) :
    JVal.setFields fs k v = fs.map fun p => if p.1 = k then (k, v) else p := by
  induction fs with
  | nil => simp at hmem
  | cons p rest ih =>
    obtain ⟨k', v'⟩ := p
    simp [keysNodup] at hnd
    by_cases hk : k' = k
    · subst hk
      have hrest : rest.map (fun p => if p.1 = k' then (k', v) else p) = rest := by
        conv_rhs => rw [← List.map_id rest]
        apply List.map_congr_left
        intro q hq
        obtain ⟨a, b⟩ := q
        have hne : a ≠ k' := by
          rintro rfl
          exact hnd.1 b hq
        simp [hne]
      simp [JVal.setFields, hrest]
    · have hm : k ∈ rest.map Prod.fst := by
        rcases List.mem_cons.mp hmem with he | hm
        · exact absurd he.symm hk
        · exact hm
      simp [JVal.setFields, hk, ih hnd.2 hm]

theorem keys_setFields_mem (fs : List (String × JVal)) (k : String) (v : JVal)
    (hmem : k ∈ fs.map Prod.fst) :
    (JVal.setFields fs k v).map Prod.fst = fs.map Prod.fst := by
  induction fs with
  | nil => simp at hmem
  | cons p rest ih =>
    obtain ⟨k', v'⟩ := p
    by_cases hk : k' = k
    · simp [JVal.setFields, hk]
    · have hm : k ∈ rest.map Prod.fst := by
        rcases List.mem_cons.mp hmem with he | hm
        · exact absurd he.symm hk
        · exact hm
      simp [JVal.setFields, hk, ih hm]

theorem keysNodup_setFields (fs : List (String × JVal)) (k : String)
    (v : JVal) (hnd : keysNodup (fs.map Prod.fst) = true) :
    keysNodup ((JVal.setFields fs k v).map Prod.fst) = true := by
  by_cases hmem : k ∈ fs.map Prod.fst
  · rw [keys_setFields_mem fs k v hmem]; exact hnd
  · rw [setFields_fresh fs k v hmem]
    rw [keysNodup_iff] at hnd ⊢
    rw [List.map_append]
    simp only [List.map_cons, List.map_nil]
    rw [List.nodup_append]
    refine ⟨hnd, List.nodup_singleton k, ?_⟩
    intro a ha hb
    simp at hb
    subst hb
    exact hmem ha

/-- The loop of `deepMerge` on an object accumulator is `applyList`. -/
theorem applyFields_obj (t : JVal) :
    ∀ (fs acc : List (String × JVal)),
      JVal.applyFields t (.obj acc) fs = .obj (applyList t acc fs)
  | [], acc => rfl
  | (k, v) :: rest, acc => by
    rw [applyFields_cons, applyList]
    exact applyFields_obj t rest (JVal.setFields acc k (stepVal t k v))

/-- What the merge loop builds over an object accumulator: every
accumulator entry in place — overwritten by its patch value's write
when the patch carries its key — followed by the patch's fresh keys in
patch order. -/
theorem applyList_spec (t : JVal) :
    ∀ (pfs acc : List (String × JVal)),
      keysNodup (acc.map Prod.fst) = true →
      keysNodup (pfs.map Prod.fst) = true →
      applyList t acc pfs =
        (acc.map fun p =>
          match JVal.lookupField pfs p.1 with
          | some pv => (p.1, stepVal t p.1 pv)
          | none => p)
        ++ ((pfs.filter fun p => (JVal.lookupField acc p.1).isNone).map
            fun p => (p.1, stepVal t p.1 p.2))
  | [], acc, hna, hnp => by
    simp [applyList, JVal.lookupField]
  | (k, v) :: rest, acc, hna, hnp => by
    rw [List.map_cons, keysNodup_cons, Bool.and_eq_true] at hnp
    have hkrest : k ∉ rest.map Prod.fst := by simpa using hnp.1
    rw [applyList,
      applyList_spec t rest (JVal.setFields acc k (stepVal t k v))
        (keysNodup_setFields acc k (stepVal t k v) hna) hnp.2]
    have hfilt :
        (rest.filter fun p =>
          (JVal.lookupField (JVal.setFields acc k (stepVal t k v)) p.1).isNone)
        = rest.filter fun p => (JVal.lookupField acc p.1).isNone := by
      apply List.filter_congr
      intro p hp
      have hpk : k ≠ p.1 := by
        rintro rfl
        exact hkrest (List.mem_map_of_mem Prod.fst hp)
      rw [lookupField_setFields_other acc k p.1 (stepVal t k v) hpk]
    rw [hfilt]
    by_cases hmem : k ∈ acc.map Prod.fst
    · rw [setFields_map_replace acc k (stepVal t k v) hna hmem, List.map_map]
      have hmap : acc.map ((fun p =>
            match JVal.lookupField rest p.1 with
            | some pv => (p.1, stepVal t p.1 pv)
            | none => p) ∘ fun p => if p.1 = k then (k, stepVal t k v) else p)
          = acc.map fun p =>
            match JVal.lookupField ((k, v) :: rest) p.1 with
            | some pv => (p.1, stepVal t p.1 pv)
            | none => p := by
        apply List.map_congr_left
        intro p hp
        by_cases hpk : p.1 = k
        · simp only [Function.comp]
          rw [if_pos hpk]
          simp [JVal.lookupField, lookupField_none_of_not_mem rest k hkrest,
            hpk]
        · simp only [Function.comp]
          rw [if_neg hpk]
          have hne : ¬ k = p.1 := fun he => hpk he.symm
          simp [JVal.lookupField, hne]
      rw [hmap]
      have hhead : (JVal.lookupField acc k).isNone = false := by
        rcases List.mem_map.mp hmem with ⟨q, hq, hqk⟩
        obtain ⟨k1, v1⟩ := q
        cases hqk
        cases hl : JVal.lookupField acc k1 with
        | none =>
          exact absurd (lookupField_none_of_not_mem acc k1
            ((lookupField_isNone_iff acc k1).mp (by simp [hl])) ▸ hl)
            (by
              intro _
              exact ((lookupField_isNone_iff acc k1).mp (by simp [hl]))
                (List.mem_map_of_mem Prod.fst hq))
        | some w => rfl
      rw [List.filter_cons]
      simp [hhead]
    · rw [setFields_fresh acc k (stepVal t k v) hmem, List.map_append]
      have hmap : acc.map (fun p =>
            match JVal.lookupField rest p.1 with
            | some pv => (p.1, stepVal t p.1 pv)
            | none => p)
          = acc.map fun p =>
            match JVal.lookupField ((k, v) :: rest) p.1 with
            | some pv => (p.1, stepVal t p.1 pv)
            | none => p := by
        apply List.map_congr_left
        intro p hp
        have hpk : ¬ k = p.1 := by
          rintro rfl
          exact hmem (List.mem_map_of_mem Prod.fst hp)
        simp [JVal.lookupField, hpk]
      have hsingle : [(k, stepVal t k v)].map (fun p =>
            match JVal.lookupField rest p.1 with
            | some pv => (p.1, stepVal t p.1 pv)
            | none => p) = [(k, stepVal t k v)] := by
        simp [lookupField_none_of_not_mem rest k hkrest]
      have hheadnone : (JVal.lookupField acc k).isNone = true := by
        rw [lookupField_none_of_not_mem acc k hmem]; rfl
      rw [hmap, hsingle, List.filter_cons]
      simp [hheadnone]


/-! ## C1: the code merge against the specification merge -/

theorem childTarget_obj (dfs : List (String × JVal)) (k : String) :
    JVal.childTarget (.obj dfs) k = (JVal.lookupField dfs k).getD .null := rfl

theorem childTarget_bool (b : Bool) (k : String) :
    JVal.childTarget (.bool b) k = .null := by cases b <;> rfl

theorem childTarget_num (q : Q) (k : String) :
    JVal.childTarget (.num q) k = .null := by
  unfold JVal.childTarget
  split <;> rfl

theorem compatV_null (v : JVal) : compatV .null v = true := by
  cases v <;> rfl

theorem compatFields_nil : ∀ gs : List (String × JVal),
    compatFields [] gs = true
  | [] => rfl
  | (k, v) :: rest => by
    have h1 : compatFields [] ((k, v) :: rest) =
        ((match JVal.lookupField [] k with
          | some dv => compatV dv v
          | none => compatV .null v) && compatFields [] rest) := rfl
    rw [h1]
    simp [JVal.lookupField, compatV_null, compatFields_nil rest]

theorem compat_lookup : ∀ {dfs pfs : List (String × JVal)} {k : String}
    {pv : JVal}, compatFields dfs pfs = true →
    JVal.lookupField pfs k = some pv →
    compatV ((JVal.lookupField dfs k).getD .null) pv = true
  | _, [], _, _, _, hl => by simp [JVal.lookupField] at hl
  | dfs, (k', v') :: rest, k, pv, hc, hl => by
    have h1 : compatFields dfs ((k', v') :: rest) =
        ((match JVal.lookupField dfs k' with
          | some dv => compatV dv v'
          | none => compatV .null v') && compatFields dfs rest) := rfl
    rw [h1, Bool.and_eq_true] at hc
    by_cases hk : k' = k
    · subst hk
      simp [JVal.lookupField] at hl
      subst hl
      cases hdl : JVal.lookupField dfs k' with
      | none => simpa [hdl] using hc.1
      | some dv => simpa [hdl] using hc.1
    · have hl' : JVal.lookupField rest k = some pv := by
        simpa [JVal.lookupField, hk] using hl
      exact compat_lookup hc.2 hl'

theorem wfFields_mem : ∀ {fs : List (String × JVal)} {p : String × JVal},
    wfFields fs = true → p ∈ fs → wfJ p.2 = true
  | q :: rest, p, hw, h => by
    obtain ⟨k', v'⟩ := q
    rw [wfFields_cons, Bool.and_eq_true] at hw
    rcases List.mem_cons.mp h with rfl | hm
    · exact hw.1
    · exact wfFields_mem hw.2 hm

theorem jdepthF_mem : ∀ {pfs : List (String × JVal)} {p : String × JVal},
    p ∈ pfs → jdepth p.2 ≤ jdepthF pfs
  | q :: rest, p, h => by
    obtain ⟨k', v'⟩ := q
    have he : jdepthF ((k', v') :: rest) = max (jdepth v') (jdepthF rest) := rfl
    rcases List.mem_cons.mp h with rfl | hm
    · rw [he]; exact le_max_left _ _
    · rw [he]; exact le_trans (jdepthF_mem hm) (le_max_right _ _)

set_option maxHeartbeats 1000000 in
/-- On compatible inputs the code merge agrees with the
specification-side merge, for any ample fuel. -/
theorem mergeEquivAux : ∀ (f : Nat) (T : JVal) (dfs pfs : List (String × JVal)),
    (∀ k, JVal.childTarget T k = (JVal.lookupField dfs k).getD .null) →
    JVal.copyTarget T = .obj dfs →
    jdepthF pfs < f →
    keysNodup (dfs.map Prod.fst) = true →
    wfFields dfs = true →
    keysNodup (pfs.map Prod.fst) = true →
    wfFields pfs = true →
    compatFields dfs pfs = true →
    JVal.deepMerge T (.obj pfs) = .obj (mergeSpecFields f dfs pfs)
  | 0, _, _, _, _, _, hf, _, _, _, _, _ => absurd hf (by omega)
  | f + 1, T, dfs, pfs, htgt, hcopy, hf, hndD, hwfD, hndP, hwfP, hcompat => by
    rw [deepMerge_obj, hcopy, applyFields_obj, applyList_spec T pfs dfs hndD hndP]
    have hunf : mergeSpecFields (f + 1) dfs pfs =
        (dfs.map fun p =>
          match JVal.lookupField pfs p.1 with
          | some (.obj gs) =>
            (p.1, JVal.obj (mergeSpecFields f (subMappingOf p.2) gs))
          | some v => (p.1, v)
          | none => p)
        ++ ((pfs.filter fun p => (JVal.lookupField dfs p.1).isNone).map fun p =>
          match p.2 with
          | .obj gs => (p.1, JVal.obj (mergeSpecFields f [] gs))
          | v => (p.1, v)) := rfl
    rw [hunf]
    refine congrArg JVal.obj (congrArg₂ (fun a b : List (String × JVal) => a ++ b) ?_ ?_)
    · apply List.map_congr_left
      rintro ⟨k, dv⟩ hp
      cases hlp : JVal.lookupField pfs k with
      | none => simp [hlp]
      | some pv =>
        have hpvmem := lookupField_mem hlp
        have hwfpv : wfJ pv = true := wfFields_mem hwfP hpvmem
        cases pv with
        | null => simp [hlp, stepVal]
        | bool b => simp [hlp, stepVal]
        | num q => simp [hlp, stepVal]
        | str s => simp [hlp, stepVal]
        | arr xs => simp [hlp, stepVal]
        | obj gs =>
          have hdv : JVal.lookupField dfs k = some dv :=
            lookupField_of_mem_nodup hndD hp
          have hcv : compatV dv (.obj gs) = true := by
            have h := compat_lookup hcompat hlp
            rwa [hdv] at h
          have hfgs : jdepthF gs < f := by
            have h1 : jdepth (JVal.obj gs) ≤ jdepthF pfs := jdepthF_mem hpvmem
            have h2 : jdepth (JVal.obj gs) = 1 + jdepthF gs := rfl
            omega
          have hwgs : keysNodup (gs.map Prod.fst) = true ∧ wfFields gs = true := by
            rw [show wfJ (JVal.obj gs) =
              (keysNodup (gs.map Prod.fst) && wfFields gs) from rfl,
              Bool.and_eq_true] at hwfpv
            exact hwfpv
          cases dv with
          | str s => simp [compatV] at hcv
          | arr xs => simp [compatV] at hcv
          | obj dgs =>
            have hcf : compatFields dgs gs = true := by
              simpa [compatV] using hcv
            have hwdgs : wfJ (JVal.obj dgs) = true := wfFields_mem hwfD hp
            rw [show wfJ (JVal.obj dgs) =
              (keysNodup (dgs.map Prod.fst) && wfFields dgs) from rfl,
              Bool.and_eq_true] at hwdgs
            have hrec := mergeEquivAux f (.obj dgs) dgs gs
              (fun k' => rfl) rfl hfgs hwdgs.1 hwdgs.2 hwgs.1 hwgs.2 hcf
            simp [hlp, stepVal, htgt k, hdv, hrec, subMappingOf]
          | null =>
            have hrec := mergeEquivAux f .null [] gs
              (fun k' => rfl) rfl hfgs rfl rfl hwgs.1 hwgs.2
              (compatFields_nil gs)
            simp [hlp, stepVal, htgt k, hdv, hrec, subMappingOf]
          | bool b =>
            have hrec := mergeEquivAux f (.bool b) [] gs
              (fun k' => (childTarget_bool b k').trans rfl) rfl hfgs rfl rfl
              hwgs.1 hwgs.2 (compatFields_nil gs)
            simp [hlp, stepVal, htgt k, hdv, hrec, subMappingOf]
          | num q =>
            have hrec := mergeEquivAux f (.num q) [] gs
              (fun k' => (childTarget_num q k').trans rfl) rfl hfgs rfl rfl
              hwgs.1 hwgs.2 (compatFields_nil gs)
            simp [hlp, stepVal, htgt k, hdv, hrec, subMappingOf]
    · apply List.map_congr_left
      rintro ⟨k, pv⟩ hp
      have hp' := List.mem_filter.mp hp
      have hlk : JVal.lookupField dfs k = none := by
        have := hp'.2
        simpa [Option.isNone_iff_eq_none] using this
      cases pv with
      | null => simp [stepVal]
      | bool b => simp [stepVal]
      | num q => simp [stepVal]
      | str s => simp [stepVal]
      | arr xs => simp [stepVal]
      | obj gs =>
        have hwfpv : wfJ (JVal.obj gs) = true := wfFields_mem hwfP hp'.1
        rw [show wfJ (JVal.obj gs) =
          (keysNodup (gs.map Prod.fst) && wfFields gs) from rfl,
          Bool.and_eq_true] at hwfpv
        have hfgs : jdepthF gs < f := by
          have h1 : jdepth (JVal.obj gs) ≤ jdepthF pfs := jdepthF_mem hp'.1
          have h2 : jdepth (JVal.obj gs) = 1 + jdepthF gs := rfl
          omega
        have hrec := mergeEquivAux f .null [] gs (fun k' => rfl) rfl hfgs
          rfl rfl hwfpv.1 hwfpv.2 (compatFields_nil gs)
        have hct : JVal.childTarget T k = .null := by
          rw [htgt k, hlk]; rfl
        simp [stepVal, hct, hrec]

/-- C1 (counterexample): the claim says a patch value that is a
non-array object merges onto the corresponding default sub-mapping, "an
empty mapping" when the default value is not a mapping.  When the
default value is a (truthy) string, the code instead recurses onto the
string itself, and `\x7b ...target \x7d` spreads its characters into
indexed keys: defaults `a: "xy"` patched with `a: \x7bb: true\x7d`
yield `a: \x7b"0": "x", "1": "y", b: true\x7d`, not the spec's
`a: \x7bb: true\x7d`.  (A truthy non-string scalar or an array default
diverges similarly; arrays graft instead of being replaced.) -/
theorem deepMerge_spec_counterexample :
    JVal.deepMerge (.obj [("a", .str "xy")])
        (.obj [("a", .obj [("b", .bool true)])])
      = .obj [("a", .obj [("0", .str "x"), ("1", .str "y"),
          ("b", .bool true)])] ∧
    mergeSpec (.obj [("a", .str "xy")])
        (.obj [("a", .obj [("b", .bool true)])])
      = .obj [("a", .obj [("b", .bool true)])] ∧
    JVal.deepMerge (.obj [("a", .str "xy")])
        (.obj [("a", .obj [("b", .bool true)])])
      ≠ mergeSpec (.obj [("a", .str "xy")])
        (.obj [("a", .obj [("b", .bool true)])]) := by
  refine ⟨by decide, by decide, by decide⟩

/-- C1 (amended): on well-formed trees whose patch never places an
object value over a default string or array (the compatibility predicate
`compatFields`, which the counterexample violates), the code merge
returns exactly the merge described by the specification: every default
key present (patched keys recursively merged for object patch values —
onto an empty mapping when the default slot holds a scalar or nothing —
and replaced wholesale for scalar and array patch values), then the
patch's fresh keys; and being a pure function of its arguments, it
leaves the defaults value unchanged. -/
theorem deepMerge_matches_spec (dfs pfs : List (String × JVal))
    (hwd : wfJ (.obj dfs) = true) (hwp : wfJ (.obj pfs) = true)
    (hcompat : compatFields dfs pfs = true) :
    JVal.deepMerge (.obj dfs) (.obj pfs) = mergeSpec (.obj dfs) (.obj pfs) := by
  rw [show wfJ (JVal.obj dfs) =
    (keysNodup (dfs.map Prod.fst) && wfFields dfs) from rfl,
    Bool.and_eq_true] at hwd
  rw [show wfJ (JVal.obj pfs) =
    (keysNodup (pfs.map Prod.fst) && wfFields pfs) from rfl,
    Bool.and_eq_true] at hwp
  have h := mergeEquivAux (jdepthF pfs + 1) (.obj dfs) dfs pfs
    (fun k => rfl) rfl (by omega) hwd.1 hwd.2 hwp.1 hwp.2 hcompat
  rw [h]
  rfl

/-- C1 (witness). -/
theorem deepMerge_matches_spec_witness :
    JVal.deepMerge (.obj [("a", .obj [("x", .bool true)]), ("b", .bool false)])
        (.obj [("a", .obj [("y", .str "z")]), ("c", .str "w")])
      = mergeSpec (.obj [("a", .obj [("x", .bool true)]), ("b", .bool false)])
        (.obj [("a", .obj [("y", .str "z")]), ("c", .str "w")]) :=
  deepMerge_matches_spec _ _ (by decide) (by decide) (by decide)


/-! ## C7: idempotence of the merge — decimal-key and shape lemmas -/

theorem natDigitsGo_val : ∀ (fuel n : Nat), n ≤ fuel →
    (natDigitsGo fuel n).foldl (fun a d => a * 10 + d) 0 = n
  | 0, n, h => by
    have hn : n = 0 := by omega
    subst hn
    rfl
  | fuel + 1, n, h => by
    rw [natDigitsGo]
    by_cases h10 : n < 10
    · simp [h10]
    · have hdiv : n / 10 ≤ fuel := by omega
      rw [if_neg h10, List.foldl_append, natDigitsGo_val fuel (n / 10) hdiv]
      simp
      omega

theorem natDigitsGo_lt : ∀ (fuel n d : Nat), d ∈ natDigitsGo fuel n → d < 10
  | 0, n, d, h => by
    simp [natDigitsGo] at h
    omega
  | fuel + 1, n, d, h => by
    rw [natDigitsGo] at h
    by_cases h10 : n < 10
    · simp [h10] at h
      omega
    · rw [if_neg h10] at h
      rcases List.mem_append.mp h with h1 | h2
      · exact natDigitsGo_lt fuel (n / 10) d h1
      · simp at h2
        omega

theorem digitVal_digitChar (d : Nat) (hd : d < 10) :
    digitVal (digitChar d) = some d := by
  interval_cases d <;> rfl

theorem map_digitChar_inj : ∀ (ds es : List Nat),
    (∀ d ∈ ds, d < 10) → (∀ d ∈ es, d < 10) →
    ds.map digitChar = es.map digitChar → ds = es
  | [], [], _, _, _ => rfl
  | [], _ :: _, _, _, h => by simp at h
  | _ :: _, [], _, _, h => by simp at h
  | a :: ds, b :: es, hds, hes, h => by
    simp only [List.map_cons, List.cons.injEq] at h
    have ha : digitVal (digitChar a) = some a :=
      digitVal_digitChar a (hds a (by simp))
    have hb : digitVal (digitChar b) = some b :=
      digitVal_digitChar b (hes b (by simp))
    rw [h.1, hb] at ha
    have hab : a = b := by
      injection ha with h2
      omega
    subst hab
    rw [map_digitChar_inj ds es (fun d hd => hds d (by simp [hd]))
      (fun d hd => hes d (by simp [hd])) h.2]

theorem natToStr_inj : Function.Injective natToStr := by
  intro a b h
  have hdata : (natDigits a).map digitChar = (natDigits b).map digitChar := by
    have := congrArg String.data h
    simpa [natToStr] using this
  have hds : natDigits a = natDigits b :=
    map_digitChar_inj _ _ (fun d hd => natDigitsGo_lt a a d hd)
      (fun d hd => natDigitsGo_lt b b d hd) hdata
  have ha := natDigitsGo_val a a le_rfl
  have hb := natDigitsGo_val b b le_rfl
  rw [show natDigitsGo a a = natDigits a from rfl] at ha
  rw [show natDigitsGo b b = natDigits b from rfl] at hb
  rw [← ha, ← hb, hds]

theorem strSpread_keys (s : String) :
    (JVal.strSpread s).map Prod.fst = (List.range s.data.length).map natToStr := by
  rw [JVal.strSpread, List.map_map]
  rfl

theorem strSpread_keys_nodup (s : String) :
    keysNodup ((JVal.strSpread s).map Prod.fst) = true := by
  rw [strSpread_keys, keysNodup_iff]
  exact (List.nodup_range _).map natToStr_inj

theorem strSpread_val {s : String} {p : String × JVal}
    (h : p ∈ JVal.strSpread s) : ∃ c, p.2 = JVal.str c := by
  rw [JVal.strSpread] at h
  rcases List.mem_map.mp h with ⟨i, _, rfl⟩
  exact ⟨_, rfl⟩

theorem applyFields_arr : ∀ (fs : List (String × JVal)) (t : JVal)
    (xs : List JVal), ∃ ys, JVal.applyFields t (.arr xs) fs = .arr ys
  | [], _, xs => ⟨xs, rfl⟩
  | (k, v) :: rest, t, xs => by
    rw [applyFields_cons]
    cases hpi : parseIndex k with
    | some i =>
      simpa [JVal.setProp, hpi] using
        (applyFields_arr rest t (JVal.arrSet xs i (stepVal t k v)))
    | none =>
      simpa [JVal.setProp, hpi] using (applyFields_arr rest t xs)

theorem deepMerge_arr_target (xs : List JVal) (gs : List (String × JVal)) :
    ∃ ys, JVal.deepMerge (.arr xs) (.obj gs) = .arr ys := by
  rw [deepMerge_obj]
  exact applyFields_arr gs (.arr xs) xs

theorem deepMerge_obj_target_shape (ct : JVal) (gs : List (String × JVal))
    (h : ∀ xs, ct ≠ JVal.arr xs) :
    ∃ ws, JVal.deepMerge ct (.obj gs) = JVal.obj ws := by
  cases ct with
  | arr xs => exact absurd rfl (h xs)
  | null => exact ⟨_, by rw [deepMerge_obj]; exact applyFields_obj _ gs []⟩
  | bool b => exact ⟨_, by rw [deepMerge_obj]; exact applyFields_obj _ gs []⟩
  | num q => exact ⟨_, by rw [deepMerge_obj]; exact applyFields_obj _ gs []⟩
  | str s =>
    exact ⟨_, by rw [deepMerge_obj]; exact applyFields_obj _ gs (JVal.strSpread s)⟩
  | obj tfs =>
    exact ⟨_, by rw [deepMerge_obj]; exact applyFields_obj _ gs tfs⟩

theorem setFields_append_skip : ∀ (done l : List (String × JVal)) (k : String)
    (w : JVal), k ∉ done.map Prod.fst →
    JVal.setFields (done ++ l) k w = done ++ JVal.setFields l k w
  | [], l, k, w, _ => rfl
  | (k1, v1) :: done, l, k, w, h => by
    have h1 : ¬ k1 = k := fun he => h (by simp [he])
    have h2 : k ∉ done.map Prod.fst := fun hm => h (by simp [hm])
    simp only [List.cons_append, JVal.setFields, if_neg h1]
    exact congrArg (fun fs => (k1, v1) :: fs) (setFields_append_skip done l k w h2)

/-- Replaying writes whose values are already in place, in the order of
the final list, over an accumulator that is a key-prefix of it, rebuilds
exactly the final list. -/
theorem applyFields_replay (T : JVal) : ∀ (rest done afs : List (String × JVal)),
    keysNodup ((done ++ rest).map Prod.fst) = true →
    (∃ ks, rest.map Prod.fst = afs.map Prod.fst ++ ks) →
    (∀ p ∈ rest, stepVal T p.1 p.2 = p.2) →
    JVal.applyFields T (.obj (done ++ afs)) rest = .obj (done ++ rest)
  | [], done, afs, hnd, ⟨ks, hks⟩, hfix => by
    have hafs : afs = [] := by
      cases afs with
      | nil => rfl
      | cons a l => simp at hks
    subst hafs
    rfl
  | (k, w) :: rest, done, afs, hnd, ⟨ks, hks⟩, hfix => by
    have hnd' := (keysNodup_iff _).mp hnd
    rw [List.map_append] at hnd'
    rw [List.nodup_append] at hnd'
    have hkdone : k ∉ done.map Prod.fst := fun hkm =>
      hnd'.2.2 hkm (by simp)
    have hndstep : keysNodup (((done ++ [(k, w)]) ++ rest).map Prod.fst)
        = true := by
      rw [← List.append_cons]
      exact hnd
    rw [applyFields_cons, hfix (k, w) (by simp)]
    show JVal.applyFields T (.obj (JVal.setFields (done ++ afs) k w)) rest = _
    rw [setFields_append_skip done afs k w hkdone]
    cases afs with
    | nil =>
      show JVal.applyFields T (.obj (done ++ [(k, w)])) rest = _
      have hrepl := applyFields_replay T rest (done ++ [(k, w)]) [] hndstep
        ⟨rest.map Prod.fst, by simp⟩ (fun p hp => hfix p (by simp [hp]))
      simp only [List.append_nil] at hrepl
      rw [hrepl, ← List.append_cons]
    | cons a afs1 =>
      obtain ⟨a1, a2⟩ := a
      simp only [List.map_cons, List.map_append] at hks
      rw [List.cons_append] at hks
      injection hks with hk1 hk2
      subst hk1
      show JVal.applyFields T
        (.obj (done ++ JVal.setFields ((k, a2) :: afs1) k w)) rest = _
      have hset : JVal.setFields ((k, a2) :: afs1) k w = (k, w) :: afs1 := by
        simp [JVal.setFields]
      rw [hset, List.append_cons]
      rw [applyFields_replay T rest (done ++ [(k, w)]) afs1 hndstep
        ⟨ks, hk2⟩ (fun p hp => hfix p (by simp [hp]))]
      rw [← List.append_cons]


/-! ## C7: idempotence of the merge -/

theorem getProp_str_wf (s k : String) :
    wfJ ((JVal.getProp? (.str s) k).getD .null) = true := by
  show wfJ ((if k = "length" then some (JVal.num (qofNat s.length))
    else (parseIndex k).bind fun i =>
      (s.data.get? i).map fun c => JVal.str (String.singleton c)).getD
      .null) = true
  split
  · rfl
  · cases hpi : parseIndex k with
    | none => rfl
    | some i =>
      show wfJ ((Option.map (fun c => JVal.str (String.singleton c))
        (s.data.get? i)).getD .null) = true
      cases hg : s.data.get? i with
      | none => rfl
      | some c => rfl

theorem childTarget_wf (T : JVal) (k : String) (hT : wfJ T = true)
    (hna : ∀ xs, T ≠ JVal.arr xs) :
    wfJ (JVal.childTarget T k) = true := by
  cases T with
  | null => rfl
  | bool b => rw [childTarget_bool]; rfl
  | num q => rw [childTarget_num]; rfl
  | arr xs => exact absurd rfl (hna xs)
  | str s =>
    unfold JVal.childTarget
    split
    · exact getProp_str_wf s k
    · rfl
  | obj tfs =>
    rw [childTarget_obj]
    cases hl : JVal.lookupField tfs k with
    | none => rfl
    | some v =>
      rw [show wfJ (JVal.obj tfs) =
        (keysNodup (tfs.map Prod.fst) && wfFields tfs) from rfl,
        Bool.and_eq_true] at hT
      simpa using wfFields_mem hT.2 (lookupField_mem hl)

/-- A well-formed object merged with itself is unchanged. -/
theorem selfMergeAux : ∀ (n : Nat) (gs : List (String × JVal)),
    sizeOf gs ≤ n → wfJ (.obj gs) = true →
    JVal.deepMerge (.obj gs) (.obj gs) = .obj gs
  | 0, gs, hsz, _ => by
    exfalso
    cases gs <;> simp at hsz
  | n + 1, gs, hsz, hwf => by
    rw [show wfJ (JVal.obj gs) =
      (keysNodup (gs.map Prod.fst) && wfFields gs) from rfl,
      Bool.and_eq_true] at hwf
    rw [deepMerge_obj]
    show JVal.applyFields (.obj gs) (.obj gs) gs = .obj gs
    have hfix : ∀ p ∈ gs, stepVal (.obj gs) p.1 p.2 = p.2 := by
      rintro ⟨k, v⟩ hp
      cases v with
      | null => rfl
      | bool b => rfl
      | num q => rfl
      | str s => rfl
      | arr xs => rfl
      | obj hs =>
        have hl : JVal.lookupField gs k = some (.obj hs) :=
          lookupField_of_mem_nodup hwf.1 hp
        have h1 := List.sizeOf_lt_of_mem hp
        simp at h1
        rw [show stepVal (JVal.obj gs) k (JVal.obj hs) =
          JVal.deepMerge (JVal.childTarget (JVal.obj gs) k) (.obj hs) from rfl,
          childTarget_obj, hl]
        show JVal.deepMerge (JVal.obj hs) (JVal.obj hs) = JVal.obj hs
        exact selfMergeAux n hs (by omega) (wfFields_mem hwf.2 hp)
    have h := applyFields_replay (.obj gs) gs [] gs (by simpa using hwf.1)
      ⟨[], by simp⟩ hfix
    simpa using h

/-- Writing the same source entry twice in a row is inert, as long as
re-merging onto the child target is (supplied as `IH`); an array child
target is inert outright because its merge result is an array, which the
loop copies wholesale without recursing. -/
theorem stepVal_idem_of (T : JVal) (k : String) (pv : JVal)
    (IH : ∀ gs, pv = JVal.obj gs →
      (∀ xs, JVal.childTarget T k ≠ JVal.arr xs) →
      JVal.deepMerge (JVal.childTarget T k)
          (JVal.deepMerge (JVal.childTarget T k) (.obj gs))
        = JVal.deepMerge (JVal.childTarget T k) (.obj gs)) :
    stepVal T k (stepVal T k pv) = stepVal T k pv := by
  cases pv with
  | null => rfl
  | bool b => rfl
  | num q => rfl
  | str s => rfl
  | arr xs => rfl
  | obj gs =>
    show stepVal T k (JVal.deepMerge (JVal.childTarget T k) (.obj gs))
      = JVal.deepMerge (JVal.childTarget T k) (.obj gs)
    by_cases hna : ∀ xs, JVal.childTarget T k ≠ JVal.arr xs
    · obtain ⟨ws, hws⟩ := deepMerge_obj_target_shape _ gs hna
      have h2 := IH gs rfl hna
      rw [hws] at h2 ⊢
      show JVal.deepMerge (JVal.childTarget T k) (.obj ws) = .obj ws
      exact h2
    · push_neg at hna
      obtain ⟨xs, hxs⟩ := hna
      obtain ⟨ys, hys⟩ := deepMerge_arr_target xs gs
      rw [hxs, hys]
      rfl

theorem keys_map_patched (afs pfs : List (String × JVal)) (T : JVal) :
    ((afs.map fun p =>
      match JVal.lookupField pfs p.1 with
      | some pv => (p.1, stepVal T p.1 pv)
      | none => p).map Prod.fst) = afs.map Prod.fst := by
  rw [List.map_map]
  apply List.map_congr_left
  rintro ⟨k, v⟩ hp
  cases h : JVal.lookupField pfs k <;> simp [h]

theorem keys_map_written (l : List (String × JVal)) (T : JVal) :
    ((l.map fun p => (p.1, stepVal T p.1 p.2)).map Prod.fst)
      = l.map Prod.fst := by
  rw [List.map_map]
  rfl

set_option maxHeartbeats 1000000 in
/-- The engine of the idempotence proof, for a target whose shallow copy
is an object: replaying the first merge's output over the same target
leaves it unchanged, given inertness of the untouched copied entries and
of double writes. -/
theorem mergeIdemCore (T : JVal) (afs pfs : List (String × JVal))
    (hcopy : JVal.copyTarget T = .obj afs)
    (hndA : keysNodup (afs.map Prod.fst) = true)
    (hndP : keysNodup (pfs.map Prod.fst) = true)
    (hold : ∀ p ∈ afs, JVal.lookupField pfs p.1 = none →
      stepVal T p.1 p.2 = p.2)
    (hstep : ∀ (k : String) (pv : JVal),
      JVal.lookupField pfs k = some pv ∨ (k, pv) ∈ pfs →
      stepVal T k (stepVal T k pv) = stepVal T k pv) :
    JVal.deepMerge T (JVal.deepMerge T (.obj pfs))
      = JVal.deepMerge T (.obj pfs) := by
  rw [deepMerge_obj T pfs, hcopy, applyFields_obj T pfs afs,
    applyList_spec T pfs afs hndA hndP]
  rw [deepMerge_obj, hcopy]
  have hkeysA := keys_map_patched afs pfs T
  have hkeysB := keys_map_written
    (pfs.filter fun p => (JVal.lookupField afs p.1).isNone) T
  have hfix : ∀ p ∈ (afs.map fun (p : String × JVal) =>
        match JVal.lookupField pfs p.1 with
        | some pv => (p.1, stepVal T p.1 pv)
        | none => p)
      ++ ((pfs.filter fun (p : String × JVal) => (JVal.lookupField afs p.1).isNone).map
        fun (p : String × JVal) => (p.1, stepVal T p.1 p.2)),
      stepVal T p.1 p.2 = p.2 := by
    intro p hp
    rcases List.mem_append.mp hp with hA | hB
    · rcases List.mem_map.mp hA with ⟨q, hq, rfl⟩
      cases hql : JVal.lookupField pfs q.1 with
      | none =>
        simp only [hql]
        exact hold q hq hql
      | some pv =>
        simp only [hql]
        exact hstep q.1 pv (Or.inl hql)
    · rcases List.mem_map.mp hB with ⟨q, hq, rfl⟩
      exact hstep q.1 q.2 (Or.inr (List.mem_filter.mp hq).1)
  have hndR : keysNodup (((afs.map fun (p : String × JVal) =>
        match JVal.lookupField pfs p.1 with
        | some pv => (p.1, stepVal T p.1 pv)
        | none => p)
      ++ ((pfs.filter fun (p : String × JVal) => (JVal.lookupField afs p.1).isNone).map
        fun (p : String × JVal) => (p.1, stepVal T p.1 p.2))).map Prod.fst) = true := by
    rw [List.map_append, hkeysA, hkeysB, keysNodup_iff, List.nodup_append]
    refine ⟨(keysNodup_iff _).mp hndA, ?_, ?_⟩
    · exact ((keysNodup_iff _).mp hndP).sublist
        ((List.filter_sublist _).map Prod.fst)
    · intro a ha hb
      rcases List.mem_map.mp hb with ⟨q, hq, rfl⟩
      exact ((lookupField_isNone_iff afs q.1).mp
        (List.mem_filter.mp hq).2) ha
  have h := applyFields_replay T ((afs.map fun (p : String × JVal) =>
        match JVal.lookupField pfs p.1 with
        | some pv => (p.1, stepVal T p.1 pv)
        | none => p)
      ++ ((pfs.filter fun (p : String × JVal) => (JVal.lookupField afs p.1).isNone).map
        fun (p : String × JVal) => (p.1, stepVal T p.1 p.2))) [] afs (by simpa using hndR)
    ⟨(pfs.filter fun p => (JVal.lookupField afs p.1).isNone).map Prod.fst,
      by rw [List.map_append, hkeysA, hkeysB]⟩ hfix
  simpa using h

set_option maxHeartbeats 1000000 in
/-- Idempotence for every non-array target and well-formed object patch:
re-merging the merge result onto the same target returns it
unchanged. -/
theorem mergeIdemAux : ∀ (n : Nat) (pfs : List (String × JVal)) (T : JVal),
    sizeOf pfs ≤ n →
    (∀ xs, T ≠ JVal.arr xs) →
    wfJ T = true →
    keysNodup (pfs.map Prod.fst) = true →
    wfFields pfs = true →
    JVal.deepMerge T (JVal.deepMerge T (.obj pfs))
      = JVal.deepMerge T (.obj pfs)
  | 0, pfs, T, hsz, _, _, _, _ => by
    exfalso
    cases pfs <;> simp at hsz
  | n + 1, pfs, T, hsz, hTarr, hwT, hndP, hwfP => by
    have hstep : ∀ (k : String) (pv : JVal),
        JVal.lookupField pfs k = some pv ∨ (k, pv) ∈ pfs →
        stepVal T k (stepVal T k pv) = stepVal T k pv := by
      intro k pv hmem
      have hpvmem : (k, pv) ∈ pfs := by
        rcases hmem with h | h
        · exact lookupField_mem h
        · exact h
      apply stepVal_idem_of
      intro gs hgs hna
      subst hgs
      have h1 := List.sizeOf_lt_of_mem hpvmem
      simp at h1
      have hwpv : wfJ (JVal.obj gs) = true := wfFields_mem hwfP hpvmem
      rw [show wfJ (JVal.obj gs) =
        (keysNodup (gs.map Prod.fst) && wfFields gs) from rfl,
        Bool.and_eq_true] at hwpv
      exact mergeIdemAux n gs (JVal.childTarget T k) (by omega) hna
        (childTarget_wf T k hwT hTarr) hwpv.1 hwpv.2
    cases T with
    | arr xs => exact absurd rfl (hTarr xs)
    | null => exact mergeIdemCore .null [] pfs rfl rfl hndP (by simp) hstep
    | bool b =>
      exact mergeIdemCore (.bool b) [] pfs rfl rfl hndP (by simp) hstep
    | num q =>
      exact mergeIdemCore (.num q) [] pfs rfl rfl hndP (by simp) hstep
    | str s =>
      refine mergeIdemCore (.str s) (JVal.strSpread s) pfs rfl
        (strSpread_keys_nodup s) hndP ?_ hstep
      rintro ⟨k0, v0⟩ hp _
      obtain ⟨c, hc⟩ := strSpread_val hp
      simp only at hc
      subst hc
      rfl
    | obj tfs =>
      rw [show wfJ (JVal.obj tfs) =
        (keysNodup (tfs.map Prod.fst) && wfFields tfs) from rfl,
        Bool.and_eq_true] at hwT
      refine mergeIdemCore (.obj tfs) tfs pfs rfl hwT.1 hndP ?_ hstep
      rintro ⟨k, v⟩ hp _
      cases v with
      | null => rfl
      | bool b => rfl
      | num q => rfl
      | str s => rfl
      | arr xs => rfl
      | obj hs =>
        have hl : JVal.lookupField tfs k = some (.obj hs) :=
          lookupField_of_mem_nodup hwT.1 hp
        rw [show stepVal (JVal.obj tfs) k (JVal.obj hs) =
          JVal.deepMerge (JVal.childTarget (JVal.obj tfs) k) (.obj hs)
          from rfl, childTarget_obj, hl]
        show JVal.deepMerge (JVal.obj hs) (JVal.obj hs) = JVal.obj hs
        exact selfMergeAux (sizeOf hs) hs le_rfl (wfFields_mem hwT.2 hp)

/-- C7: the config merge is idempotent with respect to its own output on
well-formed (duplicate-key-free, as every real JS object is) trees:
`merge(D, merge(D, P)) = merge(D, P)`. -/
theorem deepMerge_idempotent (dfs pfs : List (String × JVal))
    (hwd : wfJ (.obj dfs) = true) (hwp : wfJ (.obj pfs) = true) :
    JVal.deepMerge (.obj dfs) (JVal.deepMerge (.obj dfs) (.obj pfs))
      = JVal.deepMerge (.obj dfs) (.obj pfs) := by
  rw [show wfJ (JVal.obj pfs) =
    (keysNodup (pfs.map Prod.fst) && wfFields pfs) from rfl,
    Bool.and_eq_true] at hwp
  exact mergeIdemAux (sizeOf pfs) pfs (.obj dfs) le_rfl
    (fun xs h => by cases h) hwd hwp.1 hwp.2

/-- C7 (witness). -/
theorem deepMerge_idempotent_witness :
    JVal.deepMerge (.obj [("a", .obj [("x", .bool true)])])
        (JVal.deepMerge (.obj [("a", .obj [("x", .bool true)])])
          (.obj [("a", .obj [("y", .str "v")]), ("b", .str "w")]))
      = JVal.deepMerge (.obj [("a", .obj [("x", .bool true)])])
          (.obj [("a", .obj [("y", .str "v")]), ("b", .str "w")]) :=
  deepMerge_idempotent _ _ (by decide) (by decide)

end LargeDisplayCard
